import Mathlib

/-!
Verification of the component installation planner of the gpui-workbench
repository, shallowly embedded in Lean 4.

The functions modeled here come from:
* `crates/registry/src/plan.rs` (plan types, `generate_plan`, `simple_checksum`)
* `crates/registry/src/lib.rs` (`RegistryEntry`, `RegistryIndex`)
* `crates/components/src/contracts.rs` (`ComponentContract`, `validate`, builder)
* `crates/components/src/dialog.rs` (`Dialog::contract`)
* `apps/cli/src/main.rs` (`apply_plan`, `apply_mutation`, `cmd_add`,
  `scan_existing_files`, the CLI output envelope)

Embedding conventions:
* Rust `PathBuf` values are modeled by `RPath`: an absolute flag plus the list
  of normalized path components.  Rust compares paths by their components
  (`/a/b/` equals `/a/b`), which the component-list representation captures.
* Rust `u64` arithmetic is modeled by `Nat` with explicit reduction mod `2 ^ 64`.
* The filesystem is modeled by an association list from `RPath` to file
  contents; directory creation (`create_dir_all`) always succeeds in the model,
  matching a filesystem with no permission failures.  Real I/O failures are
  modeled by quantifying over an arbitrary per-mutation step function where a
  claim is about failure handling.
-/

-- ---------------------------------------------------------------------------
-- Path model (mirrors std::path::PathBuf operations used by the sources)
-- ---------------------------------------------------------------------------

/-- Split a character list at `'/'` separators, keeping empty pieces.
`splitSlash "a//b".data = [['a'], [], ['b']]`. -/
def splitSlash : List Char → List (List Char)
  | [] => [[]]
  | c :: t =>
    match splitSlash t with
    | [] => [[]]
    | p :: ps => if c = '/' then [] :: p :: ps else (c :: p) :: ps

/-- The normalized path components of a path string: the pieces between the
slashes, with empty pieces and `"."` pieces removed, exactly as
`std::path::Components` normalizes them. -/
def pathComps (s : String) : List String :=
  ((splitSlash s.data).filter (fun p => decide (p ≠ [] ∧ p ≠ ['.']))).map
    (fun p => String.mk p)

/-- Whether a path string is absolute on a Unix platform (has a root). -/
def isAbsoluteStr (s : String) : Bool :=
  s.data.head? = some '/'

/-- Model of `PathBuf`: paths compare equal in Rust when their normalized
components agree, so a path is an absolute flag plus its component list. -/
structure RPath where
  absolute : Bool
  comps : List String
deriving DecidableEq, Repr

/-- Mirror of `PathBuf::join`/`push`: an absolute argument replaces the whole
path, a relative argument appends its components (pushing `""` appends
nothing, since a trailing separator adds no component). -/
def RPath.joinStr (p : RPath) (s : String) : RPath :=
  if isAbsoluteStr s then { absolute := true, comps := pathComps s }
  else { absolute := p.absolute, comps := p.comps ++ pathComps s }

/-- Parse a path string into the path model. -/
def rpath (s : String) : RPath :=
  { absolute := isAbsoluteStr s, comps := pathComps s }

/-- Mirror of `Path::file_name` on a path string: the last normalized
component, unless it is `".."` (or there is none). -/
def fileName (s : String) : Option String :=
  match (pathComps s).getLast? with
  | none => none
  | some c => if c = ".." then none else some c

/-- Render a path for display (mirrors `Path::display`, up to the original
spelling of separators, which no modeled claim depends on). -/
def pathDisplay (p : RPath) : String :=
  (if p.absolute then "/" else "") ++ String.intercalate "/" p.comps

/-- Mirror of `Path::file_stem` on a single final component: the portion
before the last `'.'`, where a leading `'.'` (hidden-file convention) does
not count as a separator. -/
def fileStem (c : List Char) : List Char :=
  match (((List.range c.length).filter
      (fun i => decide (c.get? i = some '.' ∧ i ≠ 0))).getLast?) with
  | none => c
  | some i => c.take i

/-- Mirror of `Path::with_extension ext` (with nonempty `ext`): replace the
extension of the final component; a path without a file name (empty, or
ending in `".."`) is returned unchanged. -/
def withExtension (p : RPath) (ext : String) : RPath :=
  match p.comps.getLast? with
  | none => p
  | some last =>
    if last = ".." then p
    else { p with comps := p.comps.dropLast ++ [String.mk (fileStem last.data) ++ "." ++ ext] }

-- ---------------------------------------------------------------------------
-- String helpers (mirrors of str::contains, str::ends_with, occurrence count)
-- ---------------------------------------------------------------------------

/-- Mirror of `str::to_lowercase` on the ASCII range (character-wise map;
Rust's full Unicode lowering agrees with this on all ASCII strings, which is
the range the modeled registry keys and layout names use). -/
def charToLower (c : Char) : Char :=
  if 'A' ≤ c ∧ c ≤ 'Z' then Char.ofNat (c.toNat + 32) else c

/-- Lowercase a string character-wise. -/
def toLowerStr (s : String) : String :=
  String.mk (s.data.map charToLower)

/-- Boolean list-prefix test. -/
def isPrefixB : List Char → List Char → Bool
  | [], _ => true
  | _ :: _, [] => false
  | a :: as, b :: bs => if a = b then isPrefixB as bs else false

/-- Boolean contiguous-sublist test: does the needle occur in the haystack? -/
def isInfixB (n : List Char) : List Char → Bool
  | [] => isPrefixB n []
  | c :: t => isPrefixB n (c :: t) || isInfixB n t

/-- Number of (possibly overlapping) occurrence positions of the needle. -/
def countOcc (n : List Char) : List Char → Nat
  | [] => if isPrefixB n [] then 1 else 0
  | c :: t => (if isPrefixB n (c :: t) then 1 else 0) + countOcc n t

/-- Mirror of Rust `str::contains` for a string pattern: substring test. -/
def strContains (s pat : String) : Bool :=
  isInfixB pat.data s.data

/-- Mirror of `str::ends_with('\n')`. -/
def endsWithNewline (s : String) : Bool :=
  s.data.getLast? = some '\n'

-- ---------------------------------------------------------------------------
-- simple_checksum (crates/registry/src/plan.rs): FNV-1a 64-bit, hex-rendered
-- ---------------------------------------------------------------------------

/-- UTF-8 encoding of one character, as byte values (mirrors `str::bytes`). -/
def utf8EncodeChar (c : Char) : List Nat :=
  let n := c.toNat
  if n < 0x80 then [n]
  else if n < 0x800 then
    [0xC0 ||| (n >>> 6), 0x80 ||| (n &&& 0x3F)]
  else if n < 0x10000 then
    [0xE0 ||| (n >>> 12), 0x80 ||| ((n >>> 6) &&& 0x3F), 0x80 ||| (n &&& 0x3F)]
  else
    [0xF0 ||| (n >>> 18), 0x80 ||| ((n >>> 12) &&& 0x3F),
     0x80 ||| ((n >>> 6) &&& 0x3F), 0x80 ||| (n &&& 0x3F)]

/-- The UTF-8 bytes of a string (mirrors `content.bytes()`). -/
def utf8Bytes (s : String) : List Nat :=
  s.data.flatMap utf8EncodeChar

/-- FNV-1a 64-bit over a byte list, with `u64` wrapping modeled as mod `2^64`:
start from the offset basis, and per byte XOR the byte then multiply by the
FNV prime. -/
def fnv1a64 (bytes : List Nat) : Nat :=
  bytes.foldl (fun hash byte => ((hash ^^^ byte) * 0x100000001b3) % 2 ^ 64)
    0xcbf29ce484222325

/-- One lowercase hexadecimal digit. -/
def hexDigit (n : Nat) : Char :=
  if n < 10 then Char.ofNat (48 + n) else Char.ofNat (87 + n)

/-- Exactly `w` lowercase hex digits of `n`, most significant first
(mirrors the `{:016x}` format for `n < 16^w`). -/
def hexDigits : Nat → Nat → List Char
  | 0, _ => []
  | w + 1, n => hexDigits w (n / 16) ++ [hexDigit (n % 16)]

/-- Mirror of `simple_checksum` (plan.rs): FNV-1a 64-bit over the UTF-8 bytes
of the content, rendered as 16 lowercase hex digits. -/
def simple_checksum (content : String) : String :=
  String.mk (hexDigits 16 (fnv1a64 (utf8Bytes content)))

example : fileName "crates/components/src/dialog.rs" = some "dialog.rs" := by decide
example : fileName ".." = none := by decide
example : fileName "" = none := by decide
example : fileName "a/.." = none := by decide
example : fileName "foo.txt/." = some "foo.txt" := by decide
example : pathComps "/proj/src//shared/./ui/" = ["proj", "src", "shared", "ui"] := by decide
example : (rpath "/proj").joinStr "src/shared/ui" = rpath "/proj/src/shared/ui" := by decide
example : (rpath "/a/b").joinStr "" = rpath "/a/b" := by decide
example : withExtension (rpath "/a/dialog.rs") "provenance.json"
    = rpath "/a/dialog.provenance.json" := by decide
example : simple_checksum "" = "cbf29ce484222325" := by decide
example : strContains "pub mod a;\n" "pub mod a;" = true := by decide
example : countOcc "ab".data "xabab".data = 2 := by decide

-- ---------------------------------------------------------------------------
-- Component contracts (crates/components/src/contracts.rs)
-- ---------------------------------------------------------------------------

/-- Mirror of `ComponentState`. -/
inductive ComponentState
  | Hover
  | Active
  | Focused
  | Disabled
  | Error
  | Open
  | Selected
  | Readonly
deriving DecidableEq, Repr

/-- Mirror of `Disposition`. -/
inductive Disposition
  | Reuse
  | Fork
  | Rewrite
deriving DecidableEq, Repr

/-- Mirror of `PropDef`. -/
structure PropDef where
  name : String
  type_name : String
  required : Bool
  default_value : Option String
  description : String
deriving DecidableEq, Repr

/-- Mirror of `TokenRef`. -/
structure TokenRef where
  path : String
  usage : String
deriving DecidableEq, Repr

/-- Mirror of `InteractionChecklist`. -/
structure InteractionChecklist where
  focus_behavior : Option String
  keyboard_model : Option String
  pointer_behavior : Option String
  state_model : Option String
  disabled_behavior : Option String
  readonly_behavior : Option String
deriving DecidableEq, Repr

/-- The all-`None` default checklist (`InteractionChecklist::default`). -/
def InteractionChecklist.default : InteractionChecklist :=
  { focus_behavior := none, keyboard_model := none, pointer_behavior := none
  , state_model := none, disabled_behavior := none, readonly_behavior := none }

/-- Mirror of `ComponentContract`, restricted to the fields read by the
modeled operations (`validate`, `RegistryEntry::from_contract`); the
acceptance checklist, perf evidence and shared identifiers are carried by the
Rust struct but never read by them. -/
structure ComponentContract where
  name : String
  version : String
  disposition : Disposition
  props : List PropDef
  variants : List String
  states : List ComponentState
  token_dependencies : List TokenRef
  interaction_checklist : InteractionChecklist
  required_files : List String
deriving DecidableEq, Repr

/-- Mirror of `ValidationError`. -/
structure ValidationError where
  field : String
  message : String
deriving DecidableEq, Repr

/-- The error pushed for the prop at index `i` when a required prop carries a
default value. -/
def propError (i : Nat) (p : PropDef) : ValidationError :=
  { field := "props[" ++ toString i ++ "].default_value"
  , message := "Required prop '" ++ p.name ++ "' should not have a default value" }

/-- Mirror of `ComponentContract::validate`: each violated rule appends its
own error, in source order (no short-circuiting). -/
def ComponentContract.validate (c : ComponentContract) : List ValidationError :=
  (if c.name = "" then
    [{ field := "name", message := "Component name must not be empty" }] else [])
  ++ (if c.version = "" then
    [{ field := "version", message := "Version must not be empty" }] else [])
  ++ (if c.props = [] then
    [{ field := "props", message := "At least one prop must be defined" }] else [])
  ++ (if c.states = [] then
    [{ field := "states", message := "At least one state must be listed" }] else [])
  ++ (c.props.enum.filterMap (fun ip =>
      if ip.2.required && ip.2.default_value.isSome then some (propError ip.1 ip.2)
      else none))
  ++ (if ComponentState.Disabled ∈ c.states ∧ c.interaction_checklist.disabled_behavior = none then
    [{ field := "interaction_checklist.disabled_behavior"
     , message := "Disabled state is listed but disabled_behavior is not described" }] else [])
  ++ (if ComponentState.Readonly ∈ c.states ∧ c.interaction_checklist.readonly_behavior = none then
    [{ field := "interaction_checklist.readonly_behavior"
     , message := "Readonly state is listed but readonly_behavior is not described" }] else [])
  ++ (if ComponentState.Focused ∈ c.states ∧ c.interaction_checklist.focus_behavior = none then
    [{ field := "interaction_checklist.focus_behavior"
     , message := "Focused state is listed but focus_behavior is not described" }] else [])
  ++ (if ComponentState.Hover ∈ c.states ∧ c.interaction_checklist.pointer_behavior = none then
    [{ field := "interaction_checklist.pointer_behavior"
     , message := "Hover state is listed but pointer_behavior is not described" }] else [])

-- ---------------------------------------------------------------------------
-- Contract builder (contracts.rs), as used by Dialog::contract
-- ---------------------------------------------------------------------------

/-- Mirror of `ContractBuilder` (the fields the modeled contract carries). -/
structure ContractBuilder where
  name : String
  version : String
  disposition : Disposition
  props : List PropDef
  variants : List String
  states : List ComponentState
  token_dependencies : List TokenRef
  interaction_checklist : InteractionChecklist
  required_files : List String
deriving Repr

/-- Mirror of `ComponentContract::builder`. -/
def ComponentContract.builder (name version : String) : ContractBuilder :=
  { name := name, version := version, disposition := Disposition.Rewrite
  , props := [], variants := [], states := [], token_dependencies := []
  , interaction_checklist := InteractionChecklist.default, required_files := [] }

/-- Mirror of `ContractBuilder::disposition` (renamed: Lean forbids a method
named like the `disposition` field). -/
def ContractBuilder.set_disposition (b : ContractBuilder) (d : Disposition) : ContractBuilder :=
  { b with disposition := d }

/-- Mirror of `ContractBuilder::prop`. -/
def ContractBuilder.prop (b : ContractBuilder) (p : PropDef) : ContractBuilder :=
  { b with props := b.props ++ [p] }

/-- Mirror of `ContractBuilder::required_prop`. -/
def ContractBuilder.required_prop (b : ContractBuilder)
    (name type_name description : String) : ContractBuilder :=
  b.prop { name := name, type_name := type_name, required := true
         , default_value := none, description := description }

/-- Mirror of `ContractBuilder::optional_prop`. -/
def ContractBuilder.optional_prop (b : ContractBuilder)
    (name type_name default_value description : String) : ContractBuilder :=
  b.prop { name := name, type_name := type_name, required := false
         , default_value := some default_value, description := description }

/-- Mirror of `ContractBuilder::variant`. -/
def ContractBuilder.variant (b : ContractBuilder) (v : String) : ContractBuilder :=
  { b with variants := b.variants ++ [v] }

/-- Mirror of `ContractBuilder::state` (de-duplicating). -/
def ContractBuilder.state (b : ContractBuilder) (s : ComponentState) : ContractBuilder :=
  if s ∈ b.states then b else { b with states := b.states ++ [s] }

/-- Mirror of `ContractBuilder::token_dep`. -/
def ContractBuilder.token_dep (b : ContractBuilder) (path usage : String) : ContractBuilder :=
  { b with token_dependencies := b.token_dependencies ++ [{ path := path, usage := usage }] }

/-- Mirror of `ContractBuilder::focus_behavior`. -/
def ContractBuilder.focus_behavior (b : ContractBuilder) (d : String) : ContractBuilder :=
  { b with interaction_checklist := { b.interaction_checklist with focus_behavior := some d } }

/-- Mirror of `ContractBuilder::keyboard_model`. -/
def ContractBuilder.keyboard_model (b : ContractBuilder) (d : String) : ContractBuilder :=
  { b with interaction_checklist := { b.interaction_checklist with keyboard_model := some d } }

/-- Mirror of `ContractBuilder::pointer_behavior`. -/
def ContractBuilder.pointer_behavior (b : ContractBuilder) (d : String) : ContractBuilder :=
  { b with interaction_checklist := { b.interaction_checklist with pointer_behavior := some d } }

/-- Mirror of `ContractBuilder::state_model`. -/
def ContractBuilder.state_model (b : ContractBuilder) (d : String) : ContractBuilder :=
  { b with interaction_checklist := { b.interaction_checklist with state_model := some d } }

/-- Mirror of `ContractBuilder::disabled_behavior`. -/
def ContractBuilder.disabled_behavior (b : ContractBuilder) (d : String) : ContractBuilder :=
  { b with interaction_checklist := { b.interaction_checklist with disabled_behavior := some d } }

/-- Mirror of `ContractBuilder::readonly_behavior`. -/
def ContractBuilder.readonly_behavior (b : ContractBuilder) (d : String) : ContractBuilder :=
  { b with interaction_checklist := { b.interaction_checklist with readonly_behavior := some d } }

/-- Mirror of `ContractBuilder::required_file`. -/
def ContractBuilder.required_file (b : ContractBuilder) (f : String) : ContractBuilder :=
  { b with required_files := b.required_files ++ [f] }

/-- Mirror of `ContractBuilder::build`. -/
def ContractBuilder.build (b : ContractBuilder) : ComponentContract :=
  { name := b.name, version := b.version, disposition := b.disposition
  , props := b.props, variants := b.variants, states := b.states
  , token_dependencies := b.token_dependencies
  , interaction_checklist := b.interaction_checklist
  , required_files := b.required_files }

/-- Mirror of `Dialog::contract` (crates/components/src/dialog.rs); the Rust
line-continuation escapes in the narrative strings join with single spaces. -/
def Dialog.contract : ComponentContract :=
  (ComponentContract.builder "Dialog" "0.1.0"
    |>.set_disposition Disposition.Fork
    |>.required_prop "id" "ElementId" "Unique identifier for the dialog instance"
    |>.optional_prop "title" "Option<SharedString>" "None" "Dialog title text"
    |>.optional_prop "description" "Option<SharedString>" "None" "Dialog description text"
    |>.optional_prop "width" "Pixels" "480.0" "Dialog width in pixels"
    |>.optional_prop "overlay_closable" "bool" "true" "Whether clicking backdrop closes the dialog"
    |>.optional_prop "show_close_button" "bool" "true" "Whether to show the X close button"
    |>.optional_prop "tooltip" "Option<SharedString>" "None" "Tooltip text"
    |>.state ComponentState.Open
    |>.state ComponentState.Focused
    |>.state ComponentState.Hover
    |>.state ComponentState.Active
    |>.token_dep "surface.elevated_surface" "Dialog panel background"
    |>.token_dep "border.default" "Dialog panel border"
    |>.token_dep "text.default" "Dialog title and body text"
    |>.token_dep "text.muted" "Dialog description text"
    |>.token_dep "surface.background" "Overlay backdrop (with alpha)"
    |>.token_dep "ghost_element.hover" "Close button hover state"
    |>.focus_behavior "Focus trap: Tab/Shift-Tab cycle within dialog. Focus captured on open, returned to trigger on close."
    |>.keyboard_model "Escape dismisses the dialog. Enter is not bound by default (action buttons handle their own activation)."
    |>.pointer_behavior "Click on backdrop dismisses (if overlay_closable). Click on close button dismisses. Mouse events on dialog panel stop propagation to backdrop."
    |>.state_model "Controlled open/close via OpenState. Dialog is created in Open state; closing returns focus."
    |>.required_file "crates/components/src/dialog.rs"
    |>.build)

-- ---------------------------------------------------------------------------
-- Registry (crates/registry/src/lib.rs)
-- ---------------------------------------------------------------------------

/-- Mirror of `RegistryEntry`. -/
structure RegistryEntry where
  name : String
  version : String
  disposition : Disposition
  variants : List String
  states : List ComponentState
  props : List PropDef
  token_dependencies : List TokenRef
  required_files : List String
deriving DecidableEq, Repr

/-- Mirror of `RegistryEntry::from_contract`. -/
def RegistryEntry.from_contract (c : ComponentContract) : RegistryEntry :=
  { name := c.name, version := c.version, disposition := c.disposition
  , variants := c.variants, states := c.states, props := c.props
  , token_dependencies := c.token_dependencies
  , required_files := c.required_files }

/-- Replace-or-append insertion into an association list: the model of both
`HashMap::insert` and `BTreeMap::insert` ("latest wins" on an existing key).
The iteration orders of the two Rust maps differ from insertion order, but no
modeled claim observes iteration order, only lookups and determinism. -/
def assocUpsert {α β : Type} [DecidableEq α] (l : List (α × β)) (k : α) (v : β) :
    List (α × β) :=
  if l.any (fun e => decide (e.1 = k)) then
    l.map (fun e => if e.1 = k then (k, v) else e)
  else l ++ [(k, v)]

/-- Lookup in an association list (the model of map `get`). -/
def assocFind {α β : Type} [DecidableEq α] (l : List (α × β)) (k : α) : Option β :=
  (l.find? (fun e => decide (e.1 = k))).map (fun e => e.2)

/-- Mirror of `RegistryIndex`: entries keyed by lowercase component name. -/
structure RegistryIndex where
  entries : List (String × RegistryEntry)
deriving Repr

/-- Mirror of `RegistryIndex::new`. -/
def RegistryIndex.new : RegistryIndex := { entries := [] }

/-- Mirror of `RegistryIndex::register`: index by the lowercased name,
replacing any existing entry for that key. -/
def RegistryIndex.register (idx : RegistryIndex) (c : ComponentContract) : RegistryIndex :=
  let entry := RegistryEntry.from_contract c
  { entries := assocUpsert idx.entries (toLowerStr entry.name) entry }

/-- Mirror of `RegistryIndex::get`: case-insensitive exact lookup. -/
def RegistryIndex.get (idx : RegistryIndex) (name : String) : Option RegistryEntry :=
  assocFind idx.entries (toLowerStr name)

/-- Register a sequence of contracts in order, starting from the empty index
(the shape of `generate_registry`). -/
def RegistryIndex.registerAll (cs : List ComponentContract) : RegistryIndex :=
  cs.foldl RegistryIndex.register RegistryIndex.new

/-- The registry entry for Dialog, as `generate_registry` indexes it. -/
def dialogEntry : RegistryEntry := RegistryEntry.from_contract Dialog.contract

example : dialogEntry.name = "Dialog" := by decide
example : dialogEntry.version = "0.1.0" := by decide
example : dialogEntry.required_files = ["crates/components/src/dialog.rs"] := by decide
example : dialogEntry.states =
    [ComponentState.Open, ComponentState.Focused, ComponentState.Hover,
     ComponentState.Active] := by decide
example : Dialog.contract.validate = [] := by decide
example : (RegistryIndex.registerAll [Dialog.contract]).get "dIaLoG"
    = some dialogEntry := by decide

-- ---------------------------------------------------------------------------
-- Plan types (crates/registry/src/plan.rs)
-- ---------------------------------------------------------------------------

/-- Mirror of `Operation`. -/
inductive Operation
  | Add
  | Update
  | Remove
deriving DecidableEq, Repr

/-- Mirror of `FileAction`. -/
inductive FileAction
  | Create
  | Modify
  | Delete
deriving DecidableEq, Repr

/-- Mirror of `MutationStrategy`. -/
inductive MutationStrategy
  | WriteFile
  | AppendExport
  | InsertUse
  | ReplaceSection
  | DeleteFile
deriving DecidableEq, Repr

/-- Mirror of `FileMutation`. -/
structure FileMutation where
  action : FileAction
  file_path : RPath
  strategy : MutationStrategy
  content : String
  description : String
deriving DecidableEq, Repr

/-- Mirror of `Conflict`. -/
structure Conflict where
  file_path : RPath
  reason : String
deriving DecidableEq, Repr

/-- Mirror of `ProvenanceAction`. -/
structure ProvenanceAction where
  file_path : RPath
  source : String
  license : String
  modifications : String
deriving DecidableEq, Repr

/-- Mirror of `PlanContract`; `file_checksums` (a `BTreeMap`) is modeled as an
association list built by replace-or-append insertion in program order. -/
structure PlanContract where
  operation : Operation
  component_name : String
  component_version : String
  mutations : List FileMutation
  conflicts : List Conflict
  provenance_actions : List ProvenanceAction
  file_checksums : List (RPath × String)
  target_layout : String
deriving DecidableEq, Repr

/-- Mirror of `PlanContract::has_conflicts`. -/
def PlanContract.has_conflicts (p : PlanContract) : Bool :=
  !p.conflicts.isEmpty

/-- Mirror of `PlanContract::mutation_count`. -/
def PlanContract.mutation_count (p : PlanContract) : Nat :=
  p.mutations.length

-- ---------------------------------------------------------------------------
-- TemplateAdapter and DefaultLayout (plan.rs)
-- ---------------------------------------------------------------------------

/-- Mirror of the `TemplateAdapter` trait: a layout is a record of the five
capabilities the generator calls. -/
structure TemplateAdapter where
  name : String
  component_dir : String → RPath
  module_file : RPath
  export_line : String → String
  theme_tokens_file : RPath

/-- Mirror of the `DefaultLayout` implementation of `TemplateAdapter`,
for a given project root. -/
def DefaultLayout (project_root : RPath) : TemplateAdapter :=
  { name := "default"
  , component_dir := fun component_name =>
      (project_root.joinStr "src/shared/ui").joinStr (toLowerStr component_name)
  , module_file := project_root.joinStr "src/shared/ui/mod.rs"
  , export_line := fun component_name => "pub mod " ++ toLowerStr component_name ++ ";"
  , theme_tokens_file := project_root.joinStr "src/shared/theme/tokens.rs" }

-- ---------------------------------------------------------------------------
-- generate_plan (plan.rs)
-- ---------------------------------------------------------------------------

/-- The target file name of one required source file: its `file_name`, or
`"<lowercase name>.rs"` when the path has no extractable file name
(`unwrap_or_else` in step 1 of `generate_plan`). -/
def sourceFilename (entry_name source_file : String) : String :=
  (fileName source_file).getD (toLowerStr entry_name ++ ".rs")

/-- The synthesized re-export stub written for one required source file
(the `format!` in step 1 of `generate_plan`). -/
def stubContent (entry : RegistryEntry) (source_file : String) : String :=
  "// Component: " ++ entry.name ++ " v" ++ entry.version
    ++ "\n// Source: " ++ source_file
    ++ "\n// This file was installed by `gpui add " ++ toLowerStr entry.name ++ "`\n\npub use "
    ++ toLowerStr entry.name ++ "::*;\n"

/-- The component `mod.rs` content (step 2 of `generate_plan`). -/
def modContent (entry : RegistryEntry) : String :=
  "//! " ++ entry.name ++ " component module.\n\nmod " ++ toLowerStr entry.name
    ++ ";\npub use " ++ toLowerStr entry.name ++ "::*;\n"

/-- The `Create` mutation for one required source file (step 1). -/
def createMutation (entry : RegistryEntry) (component_dir : RPath)
    (source_file : String) : FileMutation :=
  { action := FileAction.Create
  , file_path := component_dir.joinStr (sourceFilename entry.name source_file)
  , strategy := MutationStrategy.WriteFile
  , content := stubContent entry source_file
  , description := "Install " ++ entry.name ++ " component source" }

/-- Mirror of `generate_plan` (plan.rs).  The single Rust loop over
`required_files` pushes, per file and independently of the other files, one
optional conflict, one checksum insertion, and one `Create` mutation; the
loop is rendered here as one pass per output field, preserving each field's
element order and the checksum insertion order. -/
def generate_plan (entry : RegistryEntry) (layout : TemplateAdapter)
    (existing_files : List RPath) : PlanContract :=
  let component_dir := layout.component_dir entry.name
  let mod_path := component_dir.joinStr "mod.rs"
  let mod_content := modContent entry
  { operation := Operation.Add
  , component_name := entry.name
  , component_version := entry.version
  , mutations :=
      entry.required_files.map (createMutation entry component_dir)
      ++ [{ action := FileAction.Create
          , file_path := mod_path
          , strategy := MutationStrategy.WriteFile
          , content := mod_content
          , description := "Create " ++ entry.name ++ " module file" }]
      ++ [{ action := FileAction.Modify
          , file_path := layout.module_file
          , strategy := MutationStrategy.AppendExport
          , content := layout.export_line entry.name
          , description := "Add " ++ entry.name ++ " export to shared UI module" }]
  , conflicts :=
      entry.required_files.filterMap (fun source_file =>
        if component_dir.joinStr (sourceFilename entry.name source_file) ∈ existing_files then
          some { file_path := component_dir.joinStr (sourceFilename entry.name source_file)
               , reason := "File already exists at target path; would overwrite existing "
                   ++ sourceFilename entry.name source_file }
        else none)
      ++ (if mod_path ∈ existing_files then
          [{ file_path := mod_path
           , reason := "Component mod.rs already exists; would overwrite" }]
        else [])
  , provenance_actions :=
      entry.required_files.map (fun source_file =>
        { file_path := component_dir.joinStr ((fileName source_file).getD "")
        , source := source_file
        , license := "Apache-2.0 OR MIT"
        , modifications := "Installed via gpui add " ++ toLowerStr entry.name })
  , file_checksums :=
      assocUpsert
        (entry.required_files.foldl (fun checksums source_file =>
          assocUpsert checksums
            (component_dir.joinStr (sourceFilename entry.name source_file))
            (simple_checksum (stubContent entry source_file)))
          [])
        mod_path (simple_checksum mod_content)
  , target_layout := layout.name }

example :
    (generate_plan dialogEntry (DefaultLayout (rpath "/proj")) []).mutations.length = 3 := by
  decide
example :
    (generate_plan dialogEntry (DefaultLayout (rpath "/proj")) []).conflicts = [] := by
  decide
example :
    ((generate_plan dialogEntry (DefaultLayout (rpath "/proj")) []).mutations.map
      (fun m => m.file_path))
    = [rpath "/proj/src/shared/ui/dialog/dialog.rs",
       rpath "/proj/src/shared/ui/dialog/mod.rs",
       rpath "/proj/src/shared/ui/mod.rs"] := by decide
example :
    (generate_plan dialogEntry (DefaultLayout (rpath "/proj"))
      [rpath "/proj/src/shared/ui/dialog/dialog.rs"]).has_conflicts = true := by decide
example :
    ((generate_plan dialogEntry (DefaultLayout (rpath "/proj")) []).provenance_actions.map
      (fun pa => pa.file_path))
    = [rpath "/proj/src/shared/ui/dialog/dialog.rs"] := by decide

-- ---------------------------------------------------------------------------
-- Filesystem model and plan execution (apps/cli/src/main.rs)
-- ---------------------------------------------------------------------------

/-- The filesystem model: an association list from path to file content.
Directories are implicit (`create_dir_all` cannot fail in the model). -/
abbrev FS := List (RPath × String)

deriving instance DecidableEq for Except

/-- Read a file (`fs::read_to_string` when present). -/
def fsRead (fs : FS) (p : RPath) : Option String :=
  (fs.find? (fun e => decide (e.1 = p))).map (fun e => e.2)

/-- Write a file (`fs::write`): replace the content at the path, or add the
file if it is new. -/
def fsWrite (fs : FS) (p : RPath) (c : String) : FS :=
  if fs.any (fun e => decide (e.1 = p)) then
    fs.map (fun e => if e.1 = p then (p, c) else e)
  else fs ++ [(p, c)]

/-- Remove a file (`fs::remove_file`). -/
def fsRemove (fs : FS) (p : RPath) : FS :=
  fs.filter (fun e => decide (e.1 ≠ p))

/-- The content written by `AppendExport` when the export line is absent:
append with exactly one separating newline (the three cases of
`apply_mutation`). -/
def appendContent (existing content : String) : String :=
  if existing = "" then content ++ "\n"
  else if endsWithNewline existing then existing ++ content ++ "\n"
  else existing ++ "\n" ++ content ++ "\n"

/-- The `AppendExport` step of `apply_mutation`: a missing target reads as
empty (the file is created, parents made as needed); if the content is
already a substring nothing happens; otherwise the content is appended. -/
def append_export_step (target : RPath) (content : String) (fs : FS) : FS :=
  let existing := (fsRead fs target).getD ""
  if strContains existing content then fs
  else fsWrite fs target (appendContent existing content)

/-- Mirror of `apply_mutation` (main.rs) over the filesystem model.  In the
model the only failing branch is `InsertUse` on a missing file (the one
branch whose read has no missing-file fallback); all other filesystem calls
are total here, and environment-dependent I/O failures are treated by
quantifying over an arbitrary step function instead (see `run_mutations`). -/
def apply_mutation (m : FileMutation) (fs : FS) : Except String FS :=
  match m.action with
  | FileAction.Create =>
    Except.ok (fsWrite fs m.file_path m.content)
  | FileAction.Modify =>
    match m.strategy with
    | MutationStrategy.AppendExport =>
      Except.ok (append_export_step m.file_path m.content fs)
    | MutationStrategy.InsertUse =>
      match fsRead fs m.file_path with
      | none => Except.error ("Failed to read file: " ++ pathDisplay m.file_path)
      | some existing =>
        if strContains existing m.content then Except.ok fs
        else Except.ok (fsWrite fs m.file_path (m.content ++ "\n" ++ existing))
    | _ => Except.ok (fsWrite fs m.file_path m.content)
  | FileAction.Delete =>
    match fsRead fs m.file_path with
    | some _ => Except.ok (fsRemove fs m.file_path)
    | none => Except.ok fs

/-- The `for (i, mutation) in plan.mutations.iter().enumerate()` loop of
`apply_plan`, for an arbitrary per-mutation step: runs the mutations in
order, returning the filesystem reached so far together with the 0-based
index and message of the first failing mutation, if any. -/
def run_mutations (step : FileMutation → FS → Except String FS) :
    List FileMutation → FS → Option (Nat × String) × FS
  | [], fs => (none, fs)
  | m :: rest, fs =>
    match step m fs with
    | Except.error e => (some (0, e), fs)
    | Except.ok fs' =>
      match run_mutations step rest fs' with
      | (some (i, e), fsStop) => (some (i + 1, e), fsStop)
      | (none, fsDone) => (none, fsDone)

/-- The sidecar provenance path of an installed file
(`pa.file_path.with_extension("provenance.json")`). -/
def provenancePath (p : RPath) : RPath :=
  withExtension p "provenance.json"

/-- The provenance sidecar JSON written by `apply_plan` (serde_json with its
default ordered map serializes the four fields in key order).  The exact
bytes are never inspected by a claim; the content is a deterministic function
of the provenance action, which is what matters. -/
def provenanceContent (pa : ProvenanceAction) : String :=
  "\x7b\n  \"installed_by\": \"gpui-cli\",\n  \"license\": \"" ++ pa.license
    ++ "\",\n  \"modifications\": \"" ++ pa.modifications
    ++ "\",\n  \"source\": \"" ++ pa.source ++ "\"\n\x7d"

/-- The best-effort provenance pass at the end of `apply_plan`: one sidecar
write per provenance action (failures are swallowed in Rust; the model write
always succeeds). -/
def writeProvenance (fs : FS) (pas : List ProvenanceAction) : FS :=
  pas.foldl (fun fs pa => fsWrite fs (provenancePath pa.file_path) (provenanceContent pa)) fs

/-- Mirror of `apply_plan` (main.rs) for an arbitrary per-mutation step:
run the mutations strictly in plan order, halting at the first error; on
success, write the provenance sidecars.  Returns the failure information (if
any) and the resulting filesystem. -/
def apply_plan (step : FileMutation → FS → Except String FS)
    (plan : PlanContract) (fs : FS) : Option (Nat × String) × FS :=
  match run_mutations step plan.mutations fs with
  | (some ie, fsStop) => (some ie, fsStop)
  | (none, fsDone) => (none, writeProvenance fsDone plan.provenance_actions)

/-- Mirror of `ApplyFailureReport` (plan.rs). -/
structure ApplyFailureReport where
  plan : PlanContract
  failed_at_index : Nat
  error : String
  completed_mutations : List FileMutation
  remaining_mutations : List FileMutation
deriving DecidableEq, Repr

/-- The report `cmd_add`/`cmd_apply` build from a failed apply:
`completed_mutations = mutations[..failed_index]`,
`remaining_mutations = mutations[failed_index..]`. -/
def mk_failure_report (plan : PlanContract) (failed_index : Nat) (error : String) :
    ApplyFailureReport :=
  { plan := plan
  , failed_at_index := failed_index
  , error := error
  , completed_mutations := plan.mutations.take failed_index
  , remaining_mutations := plan.mutations.drop failed_index }

-- ---------------------------------------------------------------------------
-- CLI surface: output envelope, scan_existing_files, cmd_add (main.rs)
-- ---------------------------------------------------------------------------

/-- Mirror of `CliError`. -/
structure CliError where
  code : String
  message : String
deriving DecidableEq, Repr

/-- The payload of the `cmd_add` envelope: a plan on the conflict and success
paths, a failure report on the apply-failure path. -/
inductive AddData
  | plan (p : PlanContract)
  | report (r : ApplyFailureReport)
deriving DecidableEq, Repr

/-- Mirror of `CliOutput` for the `add` command. -/
structure CliOutput where
  success : Bool
  data : AddData
  errors : List CliError
deriving DecidableEq, Repr

/-- Mirror of `scan_existing_files` (main.rs): the entries directly inside
`<target_dir>/src/shared/ui/<lowercase name>`.  The filesystem model holds
only files, so the scan returns the file paths one level below the component
directory (Rust's `read_dir` would also list subdirectories; the generated
plans never target a path that collides with a directory entry). -/
def scan_existing_files (fs : FS) (target_dir : RPath) (component_name : String) :
    List RPath :=
  let component_dir := (target_dir.joinStr "src/shared/ui").joinStr (toLowerStr component_name)
  (fs.map (fun e => e.1)).filter (fun p =>
    decide (p.absolute = component_dir.absolute) &&
    component_dir.comps.isPrefixOf p.comps &&
    decide (p.comps.length = component_dir.comps.length + 1))

/-- Mirror of `cmd_add` (main.rs) after a successful registry lookup: returns
the printed envelope, the command's `Result` (`.ok` prints and returns
success exit, `.error` is `bail!`), and the filesystem after the command. -/
def cmd_add (entry : RegistryEntry) (target_dir : RPath) (fs : FS) :
    CliOutput × Except String Unit × FS :=
  let layout := DefaultLayout target_dir
  let existing_files := scan_existing_files fs target_dir entry.name
  let plan := generate_plan entry layout existing_files
  if plan.has_conflicts then
    ( { success := false
      , data := AddData.plan plan
      , errors := plan.conflicts.map (fun c =>
          { code := "CONFLICT"
          , message := pathDisplay c.file_path ++ ": " ++ c.reason }) }
    , Except.ok ()
    , fs )
  else
    match apply_plan apply_mutation plan fs with
    | (none, fs') =>
      ({ success := true, data := AddData.plan plan, errors := [] }, Except.ok (), fs')
    | (some (i, e), fs') =>
      ( { success := false
        , data := AddData.report (mk_failure_report plan i e)
        , errors := [{ code := "APPLY_FAILED", message := e }] }
      , Except.error ("Apply failed at mutation " ++ toString i ++ ": " ++ e)
      , fs' )

example :
    (cmd_add dialogEntry (rpath "/proj") []).2.1 = Except.ok () := by decide
example :
    (fsRead (cmd_add dialogEntry (rpath "/proj") []).2.2
      (rpath "/proj/src/shared/ui/mod.rs")) = some "pub mod dialog;\n" := by decide
example :
    (cmd_add dialogEntry (rpath "/proj")
      [(rpath "/proj/src/shared/ui/dialog/dialog.rs", "old")]).1.success = false := by decide
example :
    (cmd_add dialogEntry (rpath "/proj")
      [(rpath "/proj/src/shared/ui/dialog/dialog.rs", "old")]).2.1 = Except.ok () := by decide

-- ---------------------------------------------------------------------------
-- Plan serialization (PlanContract::to_json): a deterministic rendering
-- ---------------------------------------------------------------------------

/-- Quote a string field (byte-level escaping omitted; no modeled claim
depends on the escaping, only on the rendering being a function of the
plan). -/
def jstr (s : String) : String := "\"" ++ s ++ "\""

/-- The serde snake_case name of an operation. -/
def Operation.json : Operation → String
  | Operation.Add => "\"add\""
  | Operation.Update => "\"update\""
  | Operation.Remove => "\"remove\""

/-- The serde snake_case name of a file action. -/
def FileAction.json : FileAction → String
  | FileAction.Create => "\"create\""
  | FileAction.Modify => "\"modify\""
  | FileAction.Delete => "\"delete\""

/-- The serde snake_case name of a mutation strategy. -/
def MutationStrategy.json : MutationStrategy → String
  | MutationStrategy.WriteFile => "\"write_file\""
  | MutationStrategy.AppendExport => "\"append_export\""
  | MutationStrategy.InsertUse => "\"insert_use\""
  | MutationStrategy.ReplaceSection => "\"replace_section\""
  | MutationStrategy.DeleteFile => "\"delete_file\""

/-- Render a JSON array. -/
def jarr (xs : List String) : String := "[" ++ String.intercalate ", " xs ++ "]"

/-- Render one mutation. -/
def FileMutation.json (m : FileMutation) : String :=
  "\x7b\"action\": " ++ m.action.json
    ++ ", \"file_path\": " ++ jstr (pathDisplay m.file_path)
    ++ ", \"strategy\": " ++ m.strategy.json
    ++ ", \"content\": " ++ jstr m.content
    ++ ", \"description\": " ++ jstr m.description ++ "\x7d"

/-- Render one conflict. -/
def Conflict.json (c : Conflict) : String :=
  "\x7b\"file_path\": " ++ jstr (pathDisplay c.file_path)
    ++ ", \"reason\": " ++ jstr c.reason ++ "\x7d"

/-- Render one provenance action. -/
def ProvenanceAction.json (pa : ProvenanceAction) : String :=
  "\x7b\"file_path\": " ++ jstr (pathDisplay pa.file_path)
    ++ ", \"source\": " ++ jstr pa.source
    ++ ", \"license\": " ++ jstr pa.license
    ++ ", \"modifications\": " ++ jstr pa.modifications ++ "\x7d"

/-- Model of `PlanContract::to_json` (serde_json pretty-printing is a pure
function of the plan; the model renders every field in declaration order, so
two equal plans serialize to the same bytes). -/
def PlanContract.to_json (p : PlanContract) : String :=
  "\x7b\"operation\": " ++ p.operation.json
    ++ ", \"component_name\": " ++ jstr p.component_name
    ++ ", \"component_version\": " ++ jstr p.component_version
    ++ ", \"mutations\": " ++ jarr (p.mutations.map FileMutation.json)
    ++ ", \"conflicts\": " ++ jarr (p.conflicts.map Conflict.json)
    ++ ", \"provenance_actions\": " ++ jarr (p.provenance_actions.map ProvenanceAction.json)
    ++ ", \"file_checksums\": \x7b"
    ++ String.intercalate ", " (p.file_checksums.map (fun e =>
        jstr (pathDisplay e.1) ++ ": " ++ jstr e.2))
    ++ "\x7d, \"target_layout\": " ++ jstr p.target_layout ++ "\x7d"

-- ---------------------------------------------------------------------------
-- Association-list lemmas (shared by the registry and checksum-map claims)
-- ---------------------------------------------------------------------------

theorem find?_append_of_none {α : Type} (l₁ l₂ : List α) (p : α → Bool)
    (h : l₁.find? p = none) : (l₁ ++ l₂).find? p = l₂.find? p := by
  rw [List.find?_append, h, Option.none_or]

theorem findMap_upsert_eq {α β : Type} [DecidableEq α] (l : List (α × β)) (k : α) (v : β)
    (hany : l.any (fun e => decide (e.1 = k)) = true) :
    (l.map (fun e => if e.1 = k then (k, v) else e)).find? (fun e => decide (e.1 = k))
      = some (k, v) := by
  induction l with
  | nil => simp at hany
  | cons e t ih =>
    by_cases he : e.1 = k
    · rw [List.map_cons, if_pos he]
      exact List.find?_cons_of_pos _ (by simp)
    · rw [List.any_cons] at hany
      simp only [he, decide_eq_false, Bool.false_or] at hany
      rw [List.map_cons, if_neg he, List.find?_cons_of_neg _ (by simp [he])]
      exact ih hany

theorem findMap_upsert_ne {α β : Type} [DecidableEq α] (l : List (α × β)) (k k' : α) (v : β)
    (hk : ¬ k' = k) :
    (l.map (fun e => if e.1 = k then (k, v) else e)).find? (fun e => decide (e.1 = k'))
      = l.find? (fun e => decide (e.1 = k')) := by
  induction l with
  | nil => rfl
  | cons e t ih =>
    by_cases he : e.1 = k
    · rw [List.map_cons, if_pos he,
        List.find?_cons_of_neg _ (by simp; exact fun h => hk h.symm),
        List.find?_cons_of_neg _ (by simp [he]; exact fun h => hk h.symm)]
      exact ih
    · by_cases he' : e.1 = k'
      · rw [List.map_cons, if_neg he,
          List.find?_cons_of_pos _ (by simp [he']),
          List.find?_cons_of_pos _ (by simp [he'])]
      · rw [List.map_cons, if_neg he,
          List.find?_cons_of_neg _ (by simp [he']),
          List.find?_cons_of_neg _ (by simp [he'])]
        exact ih

/-- Lookup after replace-or-append insertion: the inserted key reads the new
value, all other keys are unchanged. -/
theorem assocFind_upsert {α β : Type} [DecidableEq α] (l : List (α × β)) (k k' : α) (v : β) :
    assocFind (assocUpsert l k v) k' = if k' = k then some v else assocFind l k' := by
  unfold assocUpsert assocFind
  by_cases hany : l.any (fun e => decide (e.1 = k)) = true
  · rw [if_pos hany]
    by_cases hk : k' = k
    · subst hk
      rw [if_pos rfl, findMap_upsert_eq l k' v hany]
      rfl
    · rw [if_neg hk, findMap_upsert_ne l k k' v hk]
  · rw [if_neg hany]
    have hnone : l.find? (fun e => decide (e.1 = k)) = none := by
      rw [List.find?_eq_none]
      intro e he
      simp only [decide_eq_true_eq]
      intro hek
      exact hany (List.any_eq_true.mpr ⟨e, he, by simp [hek]⟩)
    by_cases hk : k' = k
    · subst hk
      rw [if_pos rfl, find?_append_of_none _ _ _ hnone]
      simp [List.find?]
    · rw [if_neg hk]
      cases hfind : l.find? (fun e => decide (e.1 = k')) with
      | some e => rw [List.find?_append, hfind]; rfl
      | none =>
        rw [find?_append_of_none _ _ _ hfind]
        rw [List.find?_cons_of_neg _ (by simp; exact fun h => hk h.symm)]
        simp [List.find?]

/-- The key list after insertion: unchanged when the key was present,
extended by the key otherwise. -/
theorem assocUpsert_keys {α β : Type} [DecidableEq α] (l : List (α × β)) (k : α) (v : β) :
    (assocUpsert l k v).map Prod.fst
      = if l.any (fun e => decide (e.1 = k)) then l.map Prod.fst
        else l.map Prod.fst ++ [k] := by
  unfold assocUpsert
  split
  · rw [List.map_map]
    apply List.map_congr_left
    intro e _
    by_cases he : e.1 = k
    · simp [he]
    · simp [he]
  · simp

/-- Replace-or-append insertion preserves distinctness of the keys. -/
theorem assocUpsert_keys_nodup {α β : Type} [DecidableEq α] (l : List (α × β)) (k : α) (v : β)
    (h : (l.map Prod.fst).Nodup) : ((assocUpsert l k v).map Prod.fst).Nodup := by
  rw [assocUpsert_keys]
  split
  · exact h
  · rename_i hany
    rw [List.nodup_append]
    refine ⟨h, List.nodup_singleton k, ?_⟩
    intro a ha hk
    rw [List.mem_singleton] at hk
    subst hk
    rcases List.mem_map.mp ha with ⟨e, he, hek⟩
    exact hany (List.any_eq_true.mpr ⟨e, he, by simp [hek]⟩)

-- ---------------------------------------------------------------------------
-- Shared concrete instances
-- ---------------------------------------------------------------------------

/-- The plan generated for the Dialog registry entry under the default layout
rooted at `/proj` with no pre-existing files (the spec's scenario). -/
def dialogPlan : PlanContract :=
  generate_plan dialogEntry (DefaultLayout (rpath "/proj")) []

/-- The `mod.rs` `Create` mutation of a generated plan (step 2). -/
def modMutation (entry : RegistryEntry) (layout : TemplateAdapter) : FileMutation :=
  { action := FileAction.Create
  , file_path := (layout.component_dir entry.name).joinStr "mod.rs"
  , strategy := MutationStrategy.WriteFile
  , content := modContent entry
  , description := "Create " ++ entry.name ++ " module file" }

/-- The final `AppendExport` `Modify` mutation of a generated plan (step 3). -/
def appendMutation (entry : RegistryEntry) (layout : TemplateAdapter) : FileMutation :=
  { action := FileAction.Modify
  , file_path := layout.module_file
  , strategy := MutationStrategy.AppendExport
  , content := layout.export_line entry.name
  , description := "Add " ++ entry.name ++ " export to shared UI module" }

-- ---------------------------------------------------------------------------
-- C1
-- ---------------------------------------------------------------------------

/-- C1: for every registry entry, layout adapter and list of existing files,
`generate_plan` returns an `Add` plan whose mutations are exactly, in order:
one `Create`/`WriteFile` mutation per `required_files` entry in declared
order targeting `component_dir(name)/<basename of the source file>` (the
target file name is the source file's `file_name` whenever one exists), then
one `Create`/`WriteFile` mutation for `component_dir/mod.rs`, then one final
`Modify`/`AppendExport` mutation targeting `layout.module_file()` with
content exactly `layout.export_line(name)`; hence
`required_files.len() + 2` mutations.  For the Dialog entry under the
default layout rooted at `/proj`, the targets include
`/proj/src/shared/ui/dialog/mod.rs`, and there is a `Modify` mutation on
`/proj/src/shared/ui/mod.rs` whose content is exactly `pub mod dialog;`. -/
theorem c1_generate_plan_mutation_order :
    (∀ (entry : RegistryEntry) (layout : TemplateAdapter) (existing_files : List RPath),
      (generate_plan entry layout existing_files).operation = Operation.Add ∧
      (generate_plan entry layout existing_files).mutations =
        entry.required_files.map (createMutation entry (layout.component_dir entry.name))
          ++ [modMutation entry layout] ++ [appendMutation entry layout] ∧
      (generate_plan entry layout existing_files).mutations.length
        = entry.required_files.length + 2 ∧
      (∀ f ∈ entry.required_files,
        (createMutation entry (layout.component_dir entry.name) f).action = FileAction.Create ∧
        (createMutation entry (layout.component_dir entry.name) f).strategy
          = MutationStrategy.WriteFile) ∧
      (∀ f b, f ∈ entry.required_files → fileName f = some b →
        (createMutation entry (layout.component_dir entry.name) f).file_path
          = (layout.component_dir entry.name).joinStr b)) ∧
    (∃ m ∈ dialogPlan.mutations,
      m.file_path = rpath "/proj/src/shared/ui/dialog/mod.rs") ∧
    (∃ m ∈ dialogPlan.mutations,
      m.action = FileAction.Modify ∧ m.file_path = rpath "/proj/src/shared/ui/mod.rs" ∧
      m.content = "pub mod dialog;") := by
  refine ⟨?_, ?_, ?_⟩
  · intro entry layout existing_files
    refine ⟨rfl, rfl, ?_, ?_, ?_⟩
    · simp [generate_plan]
    · intro f _
      exact ⟨rfl, rfl⟩
    · intro f b _ hb
      simp [createMutation, sourceFilename, hb]
  · decide
  · decide

/-- Witness for C1 at the Dialog entry: the basename clause at the concrete
required file, and the mutation count. -/
theorem c1_witness :
    (createMutation dialogEntry ((DefaultLayout (rpath "/proj")).component_dir "Dialog")
        "crates/components/src/dialog.rs").file_path
      = ((DefaultLayout (rpath "/proj")).component_dir "Dialog").joinStr "dialog.rs" ∧
    dialogPlan.mutations.length = dialogEntry.required_files.length + 2 := by
  constructor
  · exact (c1_generate_plan_mutation_order.1 dialogEntry (DefaultLayout (rpath "/proj"))
      []).2.2.2.2 "crates/components/src/dialog.rs" "dialog.rs" (by decide) (by decide)
  · exact (c1_generate_plan_mutation_order.1 dialogEntry (DefaultLayout (rpath "/proj"))
      []).2.2.1

-- ---------------------------------------------------------------------------
-- C2
-- ---------------------------------------------------------------------------

theorem ite_some_eq_some {α : Type} (P : Prop) [Decidable P] (a b : α) :
    ((if P then some a else none) = some b) ↔ (P ∧ a = b) := by
  split
  · simp_all
  · simp_all

theorem mem_ite_singleton {α : Type} (P : Prop) [Decidable P] (a b : α) :
    (b ∈ if P then [a] else ([] : List α)) ↔ (P ∧ b = a) := by
  split
  · simp_all
  · simp_all

/-- Membership in the conflicts of a generated plan, characterized. -/
theorem mem_generate_plan_conflicts (entry : RegistryEntry) (layout : TemplateAdapter)
    (existing_files : List RPath) (c : Conflict) :
    c ∈ (generate_plan entry layout existing_files).conflicts ↔
      ((∃ f ∈ entry.required_files,
          ((layout.component_dir entry.name).joinStr (sourceFilename entry.name f))
            ∈ existing_files ∧
          c = { file_path :=
                  (layout.component_dir entry.name).joinStr (sourceFilename entry.name f)
              , reason := "File already exists at target path; would overwrite existing "
                  ++ sourceFilename entry.name f })
       ∨ (((layout.component_dir entry.name).joinStr "mod.rs") ∈ existing_files ∧
          c = { file_path := (layout.component_dir entry.name).joinStr "mod.rs"
              , reason := "Component mod.rs already exists; would overwrite" })) := by
  simp only [generate_plan, List.mem_append, List.mem_filterMap, mem_ite_singleton,
    ite_some_eq_some]
  constructor
  · rintro (⟨f, hf, hmem, hceq⟩ | ⟨hmem, hceq⟩)
    · exact Or.inl ⟨f, hf, hmem, hceq.symm⟩
    · exact Or.inr ⟨hmem, hceq⟩
  · rintro (⟨f, hf, hmem, hceq⟩ | ⟨hmem, hceq⟩)
    · exact Or.inl ⟨f, hf, hmem, hceq.symm⟩
    · exact Or.inr ⟨hmem, hceq⟩

/-- Membership in the mutations of a generated plan, characterized. -/
theorem mem_generate_plan_mutations (entry : RegistryEntry) (layout : TemplateAdapter)
    (existing_files : List RPath) (m : FileMutation) :
    m ∈ (generate_plan entry layout existing_files).mutations ↔
      ((∃ f ∈ entry.required_files,
          m = createMutation entry (layout.component_dir entry.name) f)
       ∨ m = modMutation entry layout ∨ m = appendMutation entry layout) := by
  simp only [generate_plan, List.mem_append, List.mem_map, List.mem_singleton]
  constructor
  · rintro ((⟨f, hf, hmeq⟩ | hmeq) | hmeq)
    · exact Or.inl ⟨f, hf, hmeq.symm⟩
    · exact Or.inr (Or.inl hmeq)
    · exact Or.inr (Or.inr hmeq)
  · rintro (⟨f, hf, hmeq⟩ | hmeq | hmeq)
    · exact Or.inl (Or.inl ⟨f, hf, hmeq.symm⟩)
    · exact Or.inl (Or.inr hmeq)
    · exact Or.inr hmeq

/-- C2: a conflict referencing path `p` appears in the generated plan iff `p`
is the target of some `Create` mutation and `p` is a member of
`existing_files` (so the final `AppendExport` `Modify` mutation is never
conflict-checked); `has_conflicts()` is false when `existing_files` is empty
and true whenever some `Create` target is in `existing_files`; and the
mutation list is the same as with no existing files, so conflicts never
prevent a complete plan. -/
theorem c2_conflict_detection (entry : RegistryEntry) (layout : TemplateAdapter)
    (existing_files : List RPath) :
    (∀ p : RPath,
      (∃ c ∈ (generate_plan entry layout existing_files).conflicts, c.file_path = p) ↔
      ((∃ m ∈ (generate_plan entry layout existing_files).mutations,
          m.action = FileAction.Create ∧ m.file_path = p) ∧ p ∈ existing_files)) ∧
    (existing_files = [] → (generate_plan entry layout existing_files).has_conflicts = false) ∧
    ((∃ m ∈ (generate_plan entry layout existing_files).mutations,
        m.action = FileAction.Create ∧ m.file_path ∈ existing_files) →
      (generate_plan entry layout existing_files).has_conflicts = true) ∧
    (generate_plan entry layout existing_files).mutations
      = (generate_plan entry layout []).mutations := by
  have hiff : ∀ p : RPath,
      (∃ c ∈ (generate_plan entry layout existing_files).conflicts, c.file_path = p) ↔
      ((∃ m ∈ (generate_plan entry layout existing_files).mutations,
          m.action = FileAction.Create ∧ m.file_path = p) ∧ p ∈ existing_files) := by
    intro p
    constructor
    · rintro ⟨c, hc, rfl⟩
      rcases (mem_generate_plan_conflicts entry layout existing_files c).mp hc with
        ⟨f, hf, hmem, rfl⟩ | ⟨hmem, rfl⟩
      · refine ⟨⟨createMutation entry (layout.component_dir entry.name) f,
          (mem_generate_plan_mutations entry layout existing_files _).mpr
            (Or.inl ⟨f, hf, rfl⟩), rfl, rfl⟩, hmem⟩
      · refine ⟨⟨modMutation entry layout,
          (mem_generate_plan_mutations entry layout existing_files _).mpr
            (Or.inr (Or.inl rfl)), rfl, rfl⟩, hmem⟩
    · rintro ⟨⟨m, hm, hma, rfl⟩, hpmem⟩
      rcases (mem_generate_plan_mutations entry layout existing_files m).mp hm with
        ⟨f, hf, rfl⟩ | rfl | rfl
      · exact ⟨_, (mem_generate_plan_conflicts entry layout existing_files _).mpr
          (Or.inl ⟨f, hf, hpmem, rfl⟩), rfl⟩
      · exact ⟨_, (mem_generate_plan_conflicts entry layout existing_files _).mpr
          (Or.inr ⟨hpmem, rfl⟩), rfl⟩
      · simp [appendMutation] at hma
  refine ⟨hiff, ?_, ?_, rfl⟩
  · intro h
    subst h
    simp [generate_plan, PlanContract.has_conflicts]
  · rintro ⟨m, hm, hma, hmp⟩
    have := (hiff m.file_path).mpr ⟨⟨m, hm, hma, rfl⟩, hmp⟩
    rcases this with ⟨c, hc, -⟩
    simp only [PlanContract.has_conflicts, Bool.not_eq_true', List.isEmpty_eq_false_iff_exists_mem]
    exact ⟨c, hc⟩

/-- Witness for C2 at a concrete conflicting input: the Dialog plan with the
dialog source target pre-existing has a conflict referencing exactly that
path, and `has_conflicts` is true; with no existing files it is false. -/
theorem c2_witness :
    (∃ c ∈ (generate_plan dialogEntry (DefaultLayout (rpath "/proj"))
        [rpath "/proj/src/shared/ui/dialog/dialog.rs"]).conflicts,
      c.file_path = rpath "/proj/src/shared/ui/dialog/dialog.rs") ∧
    (generate_plan dialogEntry (DefaultLayout (rpath "/proj"))
        [rpath "/proj/src/shared/ui/dialog/dialog.rs"]).has_conflicts = true ∧
    dialogPlan.has_conflicts = false := by
  refine ⟨?_, ?_, ?_⟩
  · exact (c2_conflict_detection dialogEntry (DefaultLayout (rpath "/proj"))
      [rpath "/proj/src/shared/ui/dialog/dialog.rs"]).1 _ |>.mpr (by decide)
  · exact (c2_conflict_detection dialogEntry (DefaultLayout (rpath "/proj"))
      [rpath "/proj/src/shared/ui/dialog/dialog.rs"]).2.2.1 (by decide)
  · exact (c2_conflict_detection dialogEntry (DefaultLayout (rpath "/proj")) []).2.1 rfl

-- ---------------------------------------------------------------------------
-- C8
-- ---------------------------------------------------------------------------

/-- The required-prop errors of `validate` number exactly the props violating
the rule, wherever the enumeration starts. -/
theorem validate_prop_errors_length (l : List PropDef) (n : Nat) :
    ((l.enumFrom n).filterMap (fun ip =>
        if ip.2.required && ip.2.default_value.isSome then some (propError ip.1 ip.2)
        else none)).length
      = l.countP (fun p => p.required && p.default_value.isSome) := by
  induction l generalizing n with
  | nil => rfl
  | cons p t ih =>
    have h2 := ih (n + 1)
    simp only [Bool.and_eq_true] at h2
    rw [List.enumFrom_cons, List.filterMap_cons, List.countP_cons]
    cases hp : (p.required && p.default_value.isSome) with
    | true => simp [hp]; omega
    | false => simp [hp]; omega

theorem validate_prop_errors_length_enum (l : List PropDef) :
    ((l.enum).filterMap (fun ip =>
        if ip.2.required && ip.2.default_value.isSome then some (propError ip.1 ip.2)
        else none)).length
      = l.countP (fun p => p.required && p.default_value.isSome) :=
  validate_prop_errors_length l 0

theorem length_ite_singleton {α : Type} (P : Prop) [Decidable P] (a : α) :
    (if P then [a] else ([] : List α)).length = if P then 1 else 0 := by
  split <;> rfl

theorem ite_one_zero_eq_zero (P : Prop) [Decidable P] :
    ((if P then 1 else 0) = 0) ↔ ¬P := by
  split <;> simp_all

/-- C8: `validate` returns the empty list iff the name and version are
non-empty, there is at least one prop and one state, no required prop has a
default value, and each of the four interaction-sensitive states listed has
its checklist field filled; and validation does not short-circuit: the
number of errors is exactly the number of violated rules (one per violated
scalar rule, one per offending prop). -/
theorem c8_validate_characterization (c : ComponentContract) :
    (c.validate = [] ↔
      (c.name ≠ "" ∧ c.version ≠ "" ∧ c.props ≠ [] ∧ c.states ≠ [] ∧
       (∀ p ∈ c.props, p.required = true → p.default_value = none) ∧
       (ComponentState.Disabled ∈ c.states → c.interaction_checklist.disabled_behavior ≠ none) ∧
       (ComponentState.Readonly ∈ c.states → c.interaction_checklist.readonly_behavior ≠ none) ∧
       (ComponentState.Focused ∈ c.states → c.interaction_checklist.focus_behavior ≠ none) ∧
       (ComponentState.Hover ∈ c.states → c.interaction_checklist.pointer_behavior ≠ none))) ∧
    c.validate.length =
      (if c.name = "" then 1 else 0) + (if c.version = "" then 1 else 0)
      + (if c.props = [] then 1 else 0) + (if c.states = [] then 1 else 0)
      + c.props.countP (fun p => p.required && p.default_value.isSome)
      + (if ComponentState.Disabled ∈ c.states
           ∧ c.interaction_checklist.disabled_behavior = none then 1 else 0)
      + (if ComponentState.Readonly ∈ c.states
           ∧ c.interaction_checklist.readonly_behavior = none then 1 else 0)
      + (if ComponentState.Focused ∈ c.states
           ∧ c.interaction_checklist.focus_behavior = none then 1 else 0)
      + (if ComponentState.Hover ∈ c.states
           ∧ c.interaction_checklist.pointer_behavior = none then 1 else 0) := by
  have hlen : c.validate.length =
      (if c.name = "" then 1 else 0) + (if c.version = "" then 1 else 0)
      + (if c.props = [] then 1 else 0) + (if c.states = [] then 1 else 0)
      + c.props.countP (fun p => p.required && p.default_value.isSome)
      + (if ComponentState.Disabled ∈ c.states
           ∧ c.interaction_checklist.disabled_behavior = none then 1 else 0)
      + (if ComponentState.Readonly ∈ c.states
           ∧ c.interaction_checklist.readonly_behavior = none then 1 else 0)
      + (if ComponentState.Focused ∈ c.states
           ∧ c.interaction_checklist.focus_behavior = none then 1 else 0)
      + (if ComponentState.Hover ∈ c.states
           ∧ c.interaction_checklist.pointer_behavior = none then 1 else 0) := by
    simp only [ComponentContract.validate, List.length_append, length_ite_singleton]
    rw [validate_prop_errors_length_enum]
  refine ⟨?_, hlen⟩
  rw [← List.length_eq_zero, hlen]
  simp only [Nat.add_eq_zero, ite_one_zero_eq_zero, List.countP_eq_zero, Bool.and_eq_true,
    not_and, Option.not_isSome_iff_eq_none]
  constructor
  · intro h
    obtain ⟨⟨⟨⟨⟨⟨⟨⟨h1, h2⟩, h3⟩, h4⟩, h5⟩, h6⟩, h7⟩, h8⟩, h9⟩ := h
    exact ⟨h1, h2, h3, h4, h5, h6, h7, h8, h9⟩
  · intro h
    obtain ⟨h1, h2, h3, h4, h5, h6, h7, h8, h9⟩ := h
    exact ⟨⟨⟨⟨⟨⟨⟨⟨h1, h2⟩, h3⟩, h4⟩, h5⟩, h6⟩, h7⟩, h8⟩, h9⟩

/-- Witness for C8 at two concrete contracts: the Dialog contract is valid and
yields no errors; a contract listing `Disabled` without `disabled_behavior`,
with an empty version and a defaulted required prop yields exactly three
errors. -/
theorem c8_witness :
    Dialog.contract.validate = [] ∧
    (ComponentContract.builder "Bad" ""
      |>.prop { name := "x", type_name := "u32", required := true
              , default_value := some "42", description := "bad prop" }
      |>.state ComponentState.Disabled
      |>.build).validate.length = 3 := by
  constructor
  · exact (c8_validate_characterization Dialog.contract).1.mpr (by decide)
  · rw [(c8_validate_characterization _).2]
    decide

-- ---------------------------------------------------------------------------
-- C9
-- ---------------------------------------------------------------------------

/-- One registration step seen through `get`: the lowercased name now maps to
the new entry, everything else is unchanged. -/
theorem get_register (idx : RegistryIndex) (c : ComponentContract) (s : String) :
    (idx.register c).get s
      = if toLowerStr s = toLowerStr c.name then some (RegistryEntry.from_contract c)
        else idx.get s := by
  show assocFind (assocUpsert idx.entries (toLowerStr (RegistryEntry.from_contract c).name)
      (RegistryEntry.from_contract c)) (toLowerStr s) = _
  rw [assocFind_upsert]
  rfl

theorem registerAll_get_aux (cs : List ComponentContract) (idx : RegistryIndex) (s : String) :
    (cs.foldl RegistryIndex.register idx).get s
      = match cs.reverse.find? (fun c => decide (toLowerStr c.name = toLowerStr s)) with
        | some c => some (RegistryEntry.from_contract c)
        | none => idx.get s := by
  induction cs generalizing idx with
  | nil => rfl
  | cons c t ih =>
    rw [List.foldl_cons, ih, List.reverse_cons, List.find?_append]
    cases hf : t.reverse.find? (fun c => decide (toLowerStr c.name = toLowerStr s)) with
    | some c' => simp [Option.or]
    | none =>
      simp only [Option.none_or]
      by_cases hc : toLowerStr c.name = toLowerStr s
      · rw [List.find?_cons_of_pos _ (by simp [hc])]
        rw [get_register, if_pos hc.symm]
      · rw [List.find?_cons_of_neg _ (by simp [hc])]
        rw [get_register, if_neg (fun h => hc h.symm)]
        simp [List.find?]

theorem registerAll_nodup_aux (cs : List ComponentContract) (idx : RegistryIndex)
    (h : (idx.entries.map Prod.fst).Nodup) :
    (((cs.foldl RegistryIndex.register idx).entries.map Prod.fst)).Nodup := by
  induction cs generalizing idx with
  | nil => exact h
  | cons c t ih =>
    rw [List.foldl_cons]
    exact ih _ (assocUpsert_keys_nodup _ _ _ h)

/-- C9: the registry index keys entries by lowercase name and keeps at most
one entry per lowercase key; after any sequence of `register` calls, `get s`
returns the entry of the most recently registered contract whose name
lowercases to the lowercase of `s` (so lookup is case-insensitive and
"latest registration wins"), and `get s` is `none` when no registered
contract's lowercase name equals it — an exact-match characterization, so no
fuzzy or prefix matching occurs. -/
theorem c9_registry_index (cs : List ComponentContract) (s : String) :
    (RegistryIndex.registerAll cs).get s
      = (cs.reverse.find? (fun c => decide (toLowerStr c.name = toLowerStr s))).map
          RegistryEntry.from_contract ∧
    ((RegistryIndex.registerAll cs).entries.map Prod.fst).Nodup ∧
    ((∀ c ∈ cs, toLowerStr c.name ≠ toLowerStr s) →
      (RegistryIndex.registerAll cs).get s = none) := by
  have hget : (RegistryIndex.registerAll cs).get s
      = match cs.reverse.find? (fun c => decide (toLowerStr c.name = toLowerStr s)) with
        | some c => some (RegistryEntry.from_contract c)
        | none => RegistryIndex.new.get s :=
    registerAll_get_aux cs RegistryIndex.new s
  refine ⟨?_, ?_, ?_⟩
  · rw [hget]
    cases cs.reverse.find? (fun c => decide (toLowerStr c.name = toLowerStr s)) with
    | some c => rfl
    | none => rfl
  · exact registerAll_nodup_aux cs RegistryIndex.new List.nodup_nil
  · intro hnone
    rw [hget]
    have : cs.reverse.find? (fun c => decide (toLowerStr c.name = toLowerStr s)) = none := by
      rw [List.find?_eq_none]
      intro c hc
      simp only [decide_eq_true_eq]
      exact hnone c (List.mem_reverse.mp hc)
    rw [this]
    rfl

/-- Witness for C9: registering Dialog then looking it up under a different
case succeeds with the Dialog entry, and looking up an unregistered name
returns `none`. -/
theorem c9_witness :
    (RegistryIndex.registerAll [Dialog.contract]).get "DIALOG" = some dialogEntry ∧
    (RegistryIndex.registerAll [Dialog.contract]).get "button" = none := by
  constructor
  · rw [(c9_registry_index [Dialog.contract] "DIALOG").1]
    decide
  · exact (c9_registry_index [Dialog.contract] "button").2.2 (by decide)

-- ---------------------------------------------------------------------------
-- C6
-- ---------------------------------------------------------------------------

theorem assocFind_foldl_upsert_of_forall_ne {α β γ : Type} [DecidableEq α]
    (l : List γ) (key : γ → α) (val : γ → β) (m0 : List (α × β)) (k : α)
    (h : ∀ x ∈ l, key x ≠ k) :
    assocFind (l.foldl (fun m x => assocUpsert m (key x) (val x)) m0) k
      = assocFind m0 k := by
  induction l generalizing m0 with
  | nil => rfl
  | cons x t ih =>
    rw [List.foldl_cons, ih _ (fun y hy => h y (List.mem_cons_of_mem x hy))]
    rw [assocFind_upsert, if_neg (fun he => h x (List.mem_cons_self x t) he.symm)]

theorem assocFind_foldl_upsert_nodup {α β γ : Type} [DecidableEq α]
    (l : List γ) (key : γ → α) (val : γ → β) (g : γ)
    (hnodup : (l.map key).Nodup) (hg : g ∈ l) :
    ∀ m0, assocFind (l.foldl (fun m x => assocUpsert m (key x) (val x)) m0) (key g)
      = some (val g) := by
  induction l with
  | nil => cases hg
  | cons x t ih =>
    intro m0
    rw [List.foldl_cons]
    rw [List.map_cons, List.nodup_cons] at hnodup
    rcases List.mem_cons.mp hg with rfl | hg'
    · have hne : ∀ y ∈ t, key y ≠ key g := by
        intro y hy he
        exact hnodup.1 (he ▸ List.mem_map_of_mem key hy)
      rw [assocFind_foldl_upsert_of_forall_ne t key val _ (key g) hne]
      rw [assocFind_upsert, if_pos rfl]
    · exact ih hnodup.2 hg' _

theorem assocFind_foldl_upsert_isSome {α β γ : Type} [DecidableEq α]
    (l : List γ) (key : γ → α) (val : γ → β) (m0 : List (α × β)) (k : α)
    (h : (assocFind m0 k).isSome ∨ ∃ g ∈ l, key g = k) :
    (assocFind (l.foldl (fun m x => assocUpsert m (key x) (val x)) m0) k).isSome := by
  induction l generalizing m0 with
  | nil =>
    rcases h with h | ⟨g, hg, -⟩
    · exact h
    · cases hg
  | cons x t ih =>
    rw [List.foldl_cons]
    by_cases hx : key x = k
    · refine ih _ (Or.inl ?_)
      rw [assocFind_upsert, if_pos hx.symm]
      rfl
    · rcases h with h | ⟨g, hg, hgk⟩
      · refine ih _ (Or.inl ?_)
        rw [assocFind_upsert, if_neg (fun he => hx he.symm)]
        exact h
      · rcases List.mem_cons.mp hg with rfl | hg'
        · exact absurd hgk hx
        · exact ih _ (Or.inr ⟨g, hg', hgk⟩)

theorem hexDigits_length (w : Nat) : ∀ n, (hexDigits w n).length = w := by
  induction w with
  | zero => intro n; rfl
  | succ w ih => intro n; simp [hexDigits, ih]

theorem hexDigit_mem_of_lt (d : Nat) (h : d < 16) :
    hexDigit d ∈ ("0123456789abcdef").data := by
  have hall : ∀ d, d < 16 → hexDigit d ∈ ("0123456789abcdef").data := by decide
  exact hall d h

theorem hexDigits_mem (w : Nat) : ∀ n, ∀ ch ∈ hexDigits w n, ch ∈ ("0123456789abcdef").data := by
  induction w with
  | zero => intro n ch hch; cases hch
  | succ w ih =>
    intro n ch hch
    rw [hexDigits, List.mem_append] at hch
    rcases hch with hch | hch
    · exact ih _ ch hch
    · rw [List.mem_singleton] at hch
      subst hch
      exact hexDigit_mem_of_lt _ (Nat.mod_lt _ (by norm_num))

/-- The target paths of the `Create` mutations of a generated plan, in order:
the per-required-file targets and then the component `mod.rs` path. -/
theorem create_targets_eq (entry : RegistryEntry) (layout : TemplateAdapter)
    (existing_files : List RPath) :
    (((generate_plan entry layout existing_files).mutations.filter
        (fun m => decide (m.action = FileAction.Create))).map (fun m => m.file_path))
      = entry.required_files.map (fun f =>
          (layout.component_dir entry.name).joinStr (sourceFilename entry.name f))
        ++ [(layout.component_dir entry.name).joinStr "mod.rs"] := by
  simp only [generate_plan, List.filter_append, List.filter_map, List.map_append,
    List.map_map]
  have hfil : List.filter
      ((fun m => decide (m.action = FileAction.Create))
        ∘ createMutation entry (layout.component_dir entry.name)) entry.required_files
      = entry.required_files :=
    List.filter_eq_self.mpr (fun f _ => rfl)
  have hmapeq : List.map
      ((fun m => m.file_path) ∘ createMutation entry (layout.component_dir entry.name))
      entry.required_files
      = List.map (fun f =>
          (layout.component_dir entry.name).joinStr (sourceFilename entry.name f))
        entry.required_files :=
    List.map_congr_left (fun f _ => rfl)
  rw [hfil, hmapeq]
  simp [List.filter]

/-- C6 (amended): every `Create` mutation's path has a checksum entry; when
the `Create` targets are pairwise distinct (true of every actual registry
entry, whose required files have distinct basenames other than `mod.rs`),
that entry is exactly the FNV-1a 64-bit hash of that mutation's content
(offset basis `0xcbf29ce484222325`, per byte XOR then wrapping
multiplication by `0x100000001b3` mod `2^64`), rendered as exactly 16
lowercase hexadecimal digits; with duplicate targets the entry holds the
hash of the last `Create` mutation for that path (`BTreeMap::insert`
overwrites). -/
theorem c6_checksum_coverage (entry : RegistryEntry) (layout : TemplateAdapter)
    (existing_files : List RPath) :
    (∀ m ∈ (generate_plan entry layout existing_files).mutations,
      m.action = FileAction.Create →
      (assocFind (generate_plan entry layout existing_files).file_checksums
        m.file_path).isSome) ∧
    ((((generate_plan entry layout existing_files).mutations.filter
        (fun m => decide (m.action = FileAction.Create))).map (fun m => m.file_path)).Nodup →
      ∀ m ∈ (generate_plan entry layout existing_files).mutations,
        m.action = FileAction.Create →
        assocFind (generate_plan entry layout existing_files).file_checksums m.file_path
          = some (simple_checksum m.content)) ∧
    (∀ s : String, (simple_checksum s).length = 16 ∧
      ∀ ch ∈ (simple_checksum s).data, ch ∈ ("0123456789abcdef").data) := by
  have hchk : (generate_plan entry layout existing_files).file_checksums
      = assocUpsert
          (entry.required_files.foldl (fun checksums source_file =>
            assocUpsert checksums
              ((layout.component_dir entry.name).joinStr (sourceFilename entry.name source_file))
              (simple_checksum (stubContent entry source_file))) [])
          ((layout.component_dir entry.name).joinStr "mod.rs")
          (simple_checksum (modContent entry)) := rfl
  refine ⟨?_, ?_, ?_⟩
  · intro m hm hma
    rcases (mem_generate_plan_mutations entry layout existing_files m).mp hm with
      ⟨f, hf, rfl⟩ | rfl | rfl
    · simp only [createMutation]
      rw [hchk, assocFind_upsert]
      split
      · rfl
      · exact assocFind_foldl_upsert_isSome _ _ _ _ _ (Or.inr ⟨f, hf, rfl⟩)
    · simp only [modMutation]
      rw [hchk, assocFind_upsert, if_pos rfl]
      rfl
    · simp [appendMutation] at hma
  · intro hnodup m hm hma
    rw [create_targets_eq] at hnodup
    rw [List.nodup_append] at hnodup
    obtain ⟨hnd1, -, hdisj⟩ := hnodup
    rcases (mem_generate_plan_mutations entry layout existing_files m).mp hm with
      ⟨f, hf, rfl⟩ | rfl | rfl
    · simp only [createMutation]
      rw [hchk, assocFind_upsert, if_neg (fun he =>
        hdisj (List.mem_map_of_mem _ hf) (by rw [he]; exact List.mem_singleton_self _))]
      exact assocFind_foldl_upsert_nodup entry.required_files
        (fun f => (layout.component_dir entry.name).joinStr (sourceFilename entry.name f))
        (fun f => simple_checksum (stubContent entry f)) f hnd1 hf []
    · simp only [modMutation]
      rw [hchk, assocFind_upsert, if_pos rfl]
    · simp [appendMutation] at hma
  · intro s
    refine ⟨?_, ?_⟩
    · show (hexDigits 16 (fnv1a64 (utf8Bytes s))).length = 16
      exact hexDigits_length 16 _
    · show ∀ ch ∈ hexDigits 16 (fnv1a64 (utf8Bytes s)), ch ∈ ("0123456789abcdef").data
      exact hexDigits_mem 16 _

/-- C6 counterexample to the claim as stated: a registry entry whose single
required file is named `mod.rs` produces two `Create` mutations with the
same target; the checksum entry for the first mutation's path is the hash of
the second mutation's content, not of its own. -/
def widgetEntry : RegistryEntry :=
  { name := "Widget", version := "0.1.0", disposition := Disposition.Rewrite
  , variants := [], states := [ComponentState.Active], props := []
  , token_dependencies := [], required_files := ["mod.rs"] }

set_option maxRecDepth 8192 in
theorem c6_counterexample :
    ∃ m, (generate_plan widgetEntry (DefaultLayout (rpath "/proj")) []).mutations.get? 0
        = some m
      ∧ m.action = FileAction.Create
      ∧ assocFind (generate_plan widgetEntry (DefaultLayout (rpath "/proj")) []).file_checksums
          m.file_path
          ≠ some (simple_checksum m.content) := by
  refine ⟨_, rfl, rfl, ?_⟩
  decide

/-- Witness for C6 at the Dialog plan, whose create targets are distinct:
each create mutation's checksum entry is its own content hash, and every
checksum is 16 hex characters. -/
theorem c6_witness :
    (∀ m ∈ dialogPlan.mutations, m.action = FileAction.Create →
      assocFind dialogPlan.file_checksums m.file_path
        = some (simple_checksum m.content)) ∧
    (simple_checksum (modContent dialogEntry)).length = 16 := by
  constructor
  · exact (c6_checksum_coverage dialogEntry (DefaultLayout (rpath "/proj")) []).2.1
      (by decide)
  · exact ((c6_checksum_coverage dialogEntry (DefaultLayout (rpath "/proj")) []).2.2
      (modContent dialogEntry)).1

-- ---------------------------------------------------------------------------
-- C7
-- ---------------------------------------------------------------------------

theorem foldl_upsert_keys_nodup {α β γ : Type} [DecidableEq α]
    (l : List γ) (key : γ → α) (val : γ → β) :
    ∀ m0 : List (α × β), (m0.map Prod.fst).Nodup →
    ((l.foldl (fun m x => assocUpsert m (key x) (val x)) m0).map Prod.fst).Nodup := by
  induction l with
  | nil => exact fun m0 h => h
  | cons x t ih =>
    intro m0 h
    rw [List.foldl_cons]
    exact ih _ (assocUpsert_keys_nodup _ _ _ h)

/-- C7: plan generation is a pure function of `(entry, layout,
existing_files)`: two calls on equal inputs produce equal plans, hence
byte-identical serialized JSON (`to_json` is itself a function of the plan;
the checksum map carries no iteration-order freedom, since its keys are
pairwise distinct and its entry order is determined by the inputs alone).
In the model there is no randomness, wall clock, or nondeterministic map
traversal to quantify over, so purity is definitional; the content of the
theorem is that equal inputs force equal serialized bytes and that the
checksum map is canonical. -/
theorem c7_generate_plan_deterministic
    (e₁ e₂ : RegistryEntry) (l₁ l₂ : TemplateAdapter) (x₁ x₂ : List RPath)
    (he : e₁ = e₂) (hl : l₁ = l₂) (hx : x₁ = x₂) :
    generate_plan e₁ l₁ x₁ = generate_plan e₂ l₂ x₂ ∧
    (generate_plan e₁ l₁ x₁).to_json = (generate_plan e₂ l₂ x₂).to_json ∧
    ((generate_plan e₁ l₁ x₁).file_checksums.map Prod.fst).Nodup := by
  subst he
  subst hl
  subst hx
  refine ⟨rfl, rfl, ?_⟩
  show ((assocUpsert _ _ _).map Prod.fst).Nodup
  apply assocUpsert_keys_nodup
  exact foldl_upsert_keys_nodup _ _ _ [] List.nodup_nil

/-- Witness for C7: two generations of the Dialog plan from equal inputs
serialize identically. -/
theorem c7_witness :
    (generate_plan dialogEntry (DefaultLayout (rpath "/proj")) []).to_json
      = (generate_plan dialogEntry (DefaultLayout (rpath "/proj")) []).to_json ∧
    ((generate_plan dialogEntry (DefaultLayout (rpath "/proj")) []).file_checksums.map
      Prod.fst).Nodup :=
  ⟨(c7_generate_plan_deterministic dialogEntry dialogEntry
      (DefaultLayout (rpath "/proj")) (DefaultLayout (rpath "/proj")) [] [] rfl rfl rfl).2.1,
   (c7_generate_plan_deterministic dialogEntry dialogEntry
      (DefaultLayout (rpath "/proj")) (DefaultLayout (rpath "/proj")) [] [] rfl rfl rfl).2.2⟩

-- ---------------------------------------------------------------------------
-- C10
-- ---------------------------------------------------------------------------

theorem string_data_append (a b : String) : (a ++ b).data = a.data ++ b.data := by
  cases a
  cases b
  rfl

theorem splitSlash_cons (c : Char) (t p : List Char) (ps : List (List Char))
    (h : splitSlash t = p :: ps) :
    splitSlash (c :: t) = if c = '/' then [] :: p :: ps else (c :: p) :: ps := by
  simp [splitSlash, h]

theorem splitSlash_ne_nil (l : List Char) : splitSlash l ≠ [] := by
  induction l with
  | nil => simp [splitSlash]
  | cons c t ih =>
    obtain ⟨p, ps, hps⟩ := List.exists_cons_of_ne_nil ih
    rw [splitSlash_cons c t p ps hps]
    split <;> simp

theorem exists_piece_of_mem (c : Char) (h1 : c ≠ '/') :
    ∀ l : List Char, c ∈ l → ∃ p ∈ splitSlash l, c ∈ p := by
  intro l
  induction l with
  | nil => intro h; cases h
  | cons x t ih =>
    intro hmem
    obtain ⟨p, ps, hps⟩ := List.exists_cons_of_ne_nil (splitSlash_ne_nil t)
    rw [splitSlash_cons x t p ps hps]
    rcases List.mem_cons.mp hmem with rfl | hmem'
    · rw [if_neg h1]
      exact ⟨c :: p, List.mem_cons_self _ _, List.mem_cons_self _ _⟩
    · obtain ⟨q, hq, hcq⟩ := ih hmem'
      rw [hps] at hq
      by_cases hx : x = '/'
      · rw [if_pos hx]
        exact ⟨q, List.mem_cons_of_mem _ hq, hcq⟩
      · rw [if_neg hx]
        rcases List.mem_cons.mp hq with rfl | hq'
        · exact ⟨x :: q, List.mem_cons_self _ _, List.mem_cons_of_mem _ hcq⟩
        · exact ⟨q, List.mem_cons_of_mem _ hq', hcq⟩

theorem pathComps_ne_nil (s : String) (c : Char) (hc : c ∈ s.data)
    (h1 : c ≠ '/') (h2 : c ≠ '.') : pathComps s ≠ [] := by
  obtain ⟨p, hp, hcp⟩ := exists_piece_of_mem c h1 s.data hc
  unfold pathComps
  intro hnil
  rw [List.map_eq_nil_iff] at hnil
  have hmem : p ∈ (splitSlash s.data).filter (fun p => decide (p ≠ [] ∧ p ≠ ['.'])) := by
    refine List.mem_filter.mpr ⟨hp, ?_⟩
    simp only [decide_eq_true_eq]
    refine ⟨List.ne_nil_of_mem hcp, ?_⟩
    intro hpd
    rw [hpd, List.mem_singleton] at hcp
    exact h2 hcp
  rw [hnil] at hmem
  cases hmem

theorem joinStr_empty (p : RPath) : p.joinStr "" = p := by
  cases p with
  | mk a c =>
    unfold RPath.joinStr
    rw [if_neg (by decide)]
    simp [pathComps, splitSlash]

theorem isAbsoluteStr_append_rs (s : String) (h : ¬ isAbsoluteStr s = true) :
    ¬ isAbsoluteStr (s ++ ".rs") = true := by
  unfold isAbsoluteStr at *
  rw [string_data_append]
  cases hs : s.data with
  | nil => simp [hs]
  | cons c t =>
    rw [hs] at h
    simpa using h

/-- C10: when a `required_files` entry has no extractable file name
(`Path::file_name()` is `None`, e.g. a path ending in `".."` or the empty
string), the `Create` mutation at that index targets
`component_dir/<lowercase name>.rs` (the `unwrap_or_else` fallback), while
the provenance action at the same index falls back to the empty file name
(`unwrap_or_default`), making its `file_path` the component directory
itself; as long as the lowercase component name is not an absolute path, the
two targets disagree. -/
theorem c10_fallback_divergence (entry : RegistryEntry) (layout : TemplateAdapter)
    (existing_files : List RPath) (i : Nat) (f : String)
    (hi : entry.required_files[i]? = some f)
    (hn : fileName f = none)
    (habs : ¬ isAbsoluteStr (toLowerStr entry.name) = true) :
    (generate_plan entry layout existing_files).mutations[i]?
      = some { action := FileAction.Create
             , file_path := (layout.component_dir entry.name).joinStr
                 (toLowerStr entry.name ++ ".rs")
             , strategy := MutationStrategy.WriteFile
             , content := stubContent entry f
             , description := "Install " ++ entry.name ++ " component source" } ∧
    (generate_plan entry layout existing_files).provenance_actions[i]?
      = some { file_path := layout.component_dir entry.name
             , source := f
             , license := "Apache-2.0 OR MIT"
             , modifications := "Installed via gpui add " ++ toLowerStr entry.name } ∧
    (layout.component_dir entry.name).joinStr (toLowerStr entry.name ++ ".rs")
      ≠ layout.component_dir entry.name := by
  obtain ⟨hlt, hget⟩ := List.getElem?_eq_some.mp hi
  refine ⟨?_, ?_, ?_⟩
  · show (entry.required_files.map (createMutation entry (layout.component_dir entry.name))
      ++ [modMutation entry layout] ++ [appendMutation entry layout])[i]? = _
    rw [List.getElem?_append_left (by simp; omega),
      List.getElem?_append_left (by simpa using hlt), List.getElem?_map, hi]
    simp [createMutation, sourceFilename, hn]
  · show (entry.required_files.map (fun source_file =>
      ({ file_path := (layout.component_dir entry.name).joinStr ((fileName source_file).getD "")
       , source := source_file
       , license := "Apache-2.0 OR MIT"
       , modifications := "Installed via gpui add " ++ toLowerStr entry.name }
        : ProvenanceAction)))[i]? = _
    rw [List.getElem?_map, hi]
    simp [hn, joinStr_empty]
  · intro heq
    have habs2 := isAbsoluteStr_append_rs (toLowerStr entry.name) habs
    unfold RPath.joinStr at heq
    rw [if_neg habs2] at heq
    cases hcd : layout.component_dir entry.name with
    | mk a cs =>
      rw [hcd] at heq
      have hcomps : cs ++ pathComps (toLowerStr entry.name ++ ".rs") = cs :=
        congrArg RPath.comps heq
      rw [List.append_right_eq_self] at hcomps
      refine pathComps_ne_nil (toLowerStr entry.name ++ ".rs") 'r' ?_ (by decide) (by decide)
        hcomps
      rw [string_data_append]
      exact List.mem_append_right _ (by decide)

/-- Witness for C10: a synthetic entry whose required file is `".."` (no
extractable file name); its create mutation targets `widget.rs` under the
component directory while its provenance action targets the directory, and
the two differ. -/
def dotdotEntry : RegistryEntry :=
  { name := "Widget", version := "0.1.0", disposition := Disposition.Rewrite
  , variants := [], states := [ComponentState.Active], props := []
  , token_dependencies := [], required_files := [".."] }

theorem c10_witness :
    (generate_plan dotdotEntry (DefaultLayout (rpath "/proj")) []).mutations[0]?
      = some { action := FileAction.Create
             , file_path := rpath "/proj/src/shared/ui/widget/widget.rs"
             , strategy := MutationStrategy.WriteFile
             , content := stubContent dotdotEntry ".."
             , description := "Install Widget component source" } ∧
    (generate_plan dotdotEntry (DefaultLayout (rpath "/proj")) []).provenance_actions[0]?
      = some { file_path := rpath "/proj/src/shared/ui/widget"
             , source := ".."
             , license := "Apache-2.0 OR MIT"
             , modifications := "Installed via gpui add widget" } ∧
    (rpath "/proj/src/shared/ui/widget/widget.rs") ≠ (rpath "/proj/src/shared/ui/widget") := by
  have h := c10_fallback_divergence dotdotEntry (DefaultLayout (rpath "/proj")) [] 0 ".."
    (by decide) (by decide) (by decide)
  refine ⟨?_, ?_, by decide⟩
  · rw [h.1]
    decide
  · rw [h.2.1]
    decide

-- ---------------------------------------------------------------------------
-- C4
-- ---------------------------------------------------------------------------

theorem run_mutations_error_spec (step : FileMutation → FS → Except String FS) :
    ∀ (ms : List FileMutation) (fs : FS) (i : Nat) (e : String) (fsE : FS),
      run_mutations step ms fs = (some (i, e), fsE) →
      i < ms.length ∧
      run_mutations step (ms.take i) fs = (none, fsE) ∧
      ∃ m rest, ms.drop i = m :: rest ∧ step m fsE = Except.error e := by
  intro ms
  induction ms with
  | nil =>
    intro fs i e fsE h
    simp [run_mutations] at h
  | cons m t ih =>
    intro fs i e fsE h
    cases hstep : step m fs with
    | error e' =>
      simp only [run_mutations, hstep, Prod.mk.injEq, Option.some.injEq] at h
      obtain ⟨⟨rfl, rfl⟩, rfl⟩ := h
      exact ⟨Nat.succ_pos _, rfl, m, t, rfl, hstep⟩
    | ok fs' =>
      rcases hrec : run_mutations step t fs' with ⟨o, fsr⟩
      cases o with
      | none =>
        simp [run_mutations, hstep, hrec] at h
      | some je =>
        obtain ⟨j, e'⟩ := je
        simp only [run_mutations, hstep, hrec, Prod.mk.injEq, Option.some.injEq] at h
        obtain ⟨⟨rfl, rfl⟩, rfl⟩ := h
        obtain ⟨hjlt, htake, m', rest, hdrop, herr⟩ := ih fs' j e' fsr hrec
        refine ⟨Nat.succ_lt_succ hjlt, ?_, m', rest, ?_, herr⟩
        · simp only [List.take_succ_cons, run_mutations, hstep, htake]
        · rw [List.drop_succ_cons]
          exact hdrop

/-- C4: for every per-mutation step behavior, every plan, and every initial
filesystem, `apply_plan` runs the mutations strictly in plan order and halts
at the first erroring mutation: on failure it reports the 0-based index `i`
and the error, the filesystem holds exactly the successful application of
`mutations[0..i]` (the failing mutation and everything after it were not
applied, and the failing mutation errors on that very state), and the
failure report carries `completed_mutations = mutations[0..i]` and
`remaining_mutations = mutations[i..]`; when every mutation succeeds the
apply returns success (with the best-effort provenance pass on top). -/
theorem c4_apply_halts_on_first_error (step : FileMutation → FS → Except String FS)
    (plan : PlanContract) (fs0 : FS) :
    (∀ i e, (apply_plan step plan fs0).1 = some (i, e) →
      i < plan.mutations.length ∧
      run_mutations step (plan.mutations.take i) fs0 = (none, (apply_plan step plan fs0).2) ∧
      (∃ m rest, plan.mutations.drop i = m :: rest ∧
        step m ((apply_plan step plan fs0).2) = Except.error e) ∧
      (mk_failure_report plan i e).completed_mutations = plan.mutations.take i ∧
      (mk_failure_report plan i e).remaining_mutations = plan.mutations.drop i ∧
      (mk_failure_report plan i e).failed_at_index = i) ∧
    ((apply_plan step plan fs0).1 = none →
      ∃ fsDone, run_mutations step plan.mutations fs0 = (none, fsDone) ∧
        (apply_plan step plan fs0).2 = writeProvenance fsDone plan.provenance_actions) := by
  rcases hrun : run_mutations step plan.mutations fs0 with ⟨o, fsr⟩
  cases o with
  | some ie =>
    obtain ⟨i', e'⟩ := ie
    have happ2 : apply_plan step plan fs0 = (some (i', e'), fsr) := by
      unfold apply_plan
      rw [hrun]
    constructor
    · intro i e h
      rw [happ2] at h
      simp only [Option.some.injEq, Prod.mk.injEq] at h
      obtain ⟨rfl, rfl⟩ := h
      obtain ⟨hlt, htake, hrest⟩ :=
        run_mutations_error_spec step plan.mutations fs0 i' e' fsr hrun
      rw [happ2]
      exact ⟨hlt, htake, hrest, rfl, rfl, rfl⟩
    · intro h
      rw [happ2] at h
      simp at h
  | none =>
    have happ2 : apply_plan step plan fs0
        = (none, writeProvenance fsr plan.provenance_actions) := by
      unfold apply_plan
      rw [hrun]
    constructor
    · intro i e h
      rw [happ2] at h
      simp at h
    · intro _
      rw [happ2]
      exact ⟨fsr, rfl, rfl⟩

/-- A step behavior that fails exactly on the `AppendExport` mutation,
modeling an I/O error partway through a plan. -/
def boomStep : FileMutation → FS → Except String FS :=
  fun m fs =>
    if m.strategy = MutationStrategy.AppendExport then Except.error "boom"
    else apply_mutation m fs

/-- Witness for C4: applying the Dialog plan with a step that fails on the
final export mutation halts at index 2, with the first two mutations
committed and the last one remaining. -/
theorem c4_witness :
    (apply_plan boomStep dialogPlan []).1 = some (2, "boom") ∧
    2 < dialogPlan.mutations.length ∧
    (mk_failure_report dialogPlan 2 "boom").completed_mutations = dialogPlan.mutations.take 2 ∧
    (mk_failure_report dialogPlan 2 "boom").remaining_mutations = dialogPlan.mutations.drop 2 := by
  have h1 : (apply_plan boomStep dialogPlan []).1 = some (2, "boom") := by decide
  refine ⟨h1, ?_, ?_, ?_⟩
  · exact ((c4_apply_halts_on_first_error boomStep dialogPlan []).1 2 "boom" h1).1
  · exact ((c4_apply_halts_on_first_error boomStep dialogPlan []).1 2 "boom" h1).2.2.2.1
  · exact ((c4_apply_halts_on_first_error boomStep dialogPlan []).1 2 "boom" h1).2.2.2.2.1

-- ---------------------------------------------------------------------------
-- C3
-- ---------------------------------------------------------------------------

/-- C3 (amended): when the generated plan has conflicts, `cmd_add` prints the
plan wrapped in a failure envelope (`success = false`) containing one
`CONFLICT` error per detected conflict and applies no mutation — the
filesystem is unchanged; however the command then returns `Ok`, i.e. the
process exits with status zero (only apply failures exit non-zero). -/
theorem c3_add_conflict_behavior (entry : RegistryEntry) (target_dir : RPath) (fs : FS)
    (hc : (generate_plan entry (DefaultLayout target_dir)
        (scan_existing_files fs target_dir entry.name)).has_conflicts = true) :
    (cmd_add entry target_dir fs).1.success = false ∧
    (cmd_add entry target_dir fs).1.data
      = AddData.plan (generate_plan entry (DefaultLayout target_dir)
          (scan_existing_files fs target_dir entry.name)) ∧
    (cmd_add entry target_dir fs).1.errors
      = (generate_plan entry (DefaultLayout target_dir)
          (scan_existing_files fs target_dir entry.name)).conflicts.map (fun c =>
            { code := "CONFLICT", message := pathDisplay c.file_path ++ ": " ++ c.reason }) ∧
    (cmd_add entry target_dir fs).1.errors.length
      = (generate_plan entry (DefaultLayout target_dir)
          (scan_existing_files fs target_dir entry.name)).conflicts.length ∧
    (∀ err ∈ (cmd_add entry target_dir fs).1.errors, err.code = "CONFLICT") ∧
    (cmd_add entry target_dir fs).2.1 = Except.ok () ∧
    (cmd_add entry target_dir fs).2.2 = fs := by
  have hcmd : cmd_add entry target_dir fs
      = ( { success := false
          , data := AddData.plan (generate_plan entry (DefaultLayout target_dir)
              (scan_existing_files fs target_dir entry.name))
          , errors := (generate_plan entry (DefaultLayout target_dir)
              (scan_existing_files fs target_dir entry.name)).conflicts.map (fun c =>
                { code := "CONFLICT"
                , message := pathDisplay c.file_path ++ ": " ++ c.reason }) }
        , Except.ok ()
        , fs ) := by
    unfold cmd_add
    simp only [hc, if_true]
  rw [hcmd]
  refine ⟨rfl, rfl, rfl, ?_, ?_, rfl, rfl⟩
  · simp
  · intro err herr
    simp only at herr
    rcases List.mem_map.mp herr with ⟨c, -, rfl⟩
    rfl

/-- C3 counterexample to the claim as stated: with a pre-existing conflicting
file, `cmd_add` prints a failure envelope but nevertheless returns `Ok` —
the process exit status is zero, not non-zero. -/
theorem c3_counterexample :
    (generate_plan dialogEntry (DefaultLayout (rpath "/proj"))
      (scan_existing_files [(rpath "/proj/src/shared/ui/dialog/dialog.rs", "old")]
        (rpath "/proj") "Dialog")).has_conflicts = true ∧
    (cmd_add dialogEntry (rpath "/proj")
      [(rpath "/proj/src/shared/ui/dialog/dialog.rs", "old")]).1.success = false ∧
    (cmd_add dialogEntry (rpath "/proj")
      [(rpath "/proj/src/shared/ui/dialog/dialog.rs", "old")]).2.1 = Except.ok () := by
  refine ⟨by decide, by decide, by decide⟩

/-- Witness for C3 (amended) at the same concrete conflicting input: one
`CONFLICT` error per conflict and an unchanged filesystem. -/
theorem c3_witness :
    (cmd_add dialogEntry (rpath "/proj")
      [(rpath "/proj/src/shared/ui/dialog/dialog.rs", "old")]).1.errors.length
      = (generate_plan dialogEntry (DefaultLayout (rpath "/proj"))
          (scan_existing_files [(rpath "/proj/src/shared/ui/dialog/dialog.rs", "old")]
            (rpath "/proj") "Dialog")).conflicts.length ∧
    (cmd_add dialogEntry (rpath "/proj")
      [(rpath "/proj/src/shared/ui/dialog/dialog.rs", "old")]).2.2
      = [(rpath "/proj/src/shared/ui/dialog/dialog.rs", "old")] := by
  have h := c3_add_conflict_behavior dialogEntry (rpath "/proj")
    [(rpath "/proj/src/shared/ui/dialog/dialog.rs", "old")] (by decide)
  exact ⟨h.2.2.2.1, h.2.2.2.2.2.2⟩

-- ---------------------------------------------------------------------------
-- C5: substring and occurrence-count lemmas
-- ---------------------------------------------------------------------------

theorem isPrefixB_nil (n : List Char) (h : n ≠ []) : isPrefixB n [] = false := by
  cases n with
  | nil => exact absurd rfl h
  | cons a as => rfl

theorem isPrefixB_refl (l : List Char) : isPrefixB l l = true := by
  induction l with
  | nil => rfl
  | cons a as ih => simp [isPrefixB, ih]

theorem isPrefixB_self_append (n b : List Char) : isPrefixB n (n ++ b) = true := by
  induction n with
  | nil => rfl
  | cons a as ih => simp [isPrefixB, ih]

theorem isPrefixB_append_of (n : List Char) :
    ∀ (a b : List Char), isPrefixB n a = true → isPrefixB n (a ++ b) = true := by
  induction n with
  | nil => intro a b _; rfl
  | cons x xs ih =>
    intro a b h
    cases a with
    | nil => exact absurd h (by simp [isPrefixB])
    | cons y ys =>
      rw [List.cons_append]
      rw [isPrefixB] at h ⊢
      by_cases hxy : x = y
      · rw [if_pos hxy] at h ⊢
        exact ih ys b h
      · rw [if_neg hxy] at h
        exact absurd h (by simp)

theorem isPrefixB_short (n : List Char) :
    ∀ h : List Char, h.length < n.length → isPrefixB n h = false := by
  induction n with
  | nil => intro h hlen; simp at hlen
  | cons x xs ih =>
    intro h hlen
    cases h with
    | nil => rfl
    | cons y ys =>
      rw [isPrefixB]
      by_cases hxy : x = y
      · rw [if_pos hxy]
        exact ih ys (by simpa using Nat.lt_of_succ_lt_succ hlen)
      · rw [if_neg hxy]

theorem isPrefixB_sep : ∀ (n a : List Char) (c : Char), c ∉ n →
    ∀ b, isPrefixB n (a ++ c :: b) = isPrefixB n a
  | [], _, _, _, _ => rfl
  | x :: xs, [], c, hc, b => by
    have hxc : ¬ x = c := fun h => hc (h ▸ List.mem_cons_self x xs)
    rw [List.nil_append,
      show isPrefixB (x :: xs) (c :: b) = if x = c then isPrefixB xs b else false from rfl,
      if_neg hxc]
    rfl
  | x :: xs, y :: as, c, hc, b => by
    rw [List.cons_append, isPrefixB, isPrefixB]
    by_cases hxy : x = y
    · rw [if_pos hxy, if_pos hxy,
        isPrefixB_sep xs as c (fun h => hc (List.mem_cons_of_mem _ h)) b]
    · rw [if_neg hxy, if_neg hxy]

theorem countOcc_nil (n : List Char) (h : n ≠ []) : countOcc n [] = 0 := by
  simp [countOcc, isPrefixB_nil n h]

theorem countOcc_nil_needle (l : List Char) : 0 < countOcc [] l := by
  cases l <;> simp [countOcc, isPrefixB]

theorem countOcc_sep (n : List Char) (c : Char) (hc : c ∉ n) (hn : n ≠ []) :
    ∀ a b, countOcc n (a ++ c :: b) = countOcc n a + countOcc n b := by
  intro a
  induction a with
  | nil =>
    intro b
    rw [List.nil_append]
    rw [show countOcc n (c :: b)
        = (if isPrefixB n (c :: b) = true then 1 else 0) + countOcc n b from rfl]
    rw [show isPrefixB n (c :: b) = isPrefixB n [] from isPrefixB_sep n [] c hc b]
    rw [isPrefixB_nil n hn, countOcc_nil n hn]
    simp
  | cons y a' ih =>
    intro b
    rw [List.cons_append, countOcc, countOcc]
    rw [show isPrefixB n (y :: (a' ++ c :: b)) = isPrefixB n (y :: a') from
      isPrefixB_sep n (y :: a') c hc b]
    rw [ih b]
    omega

theorem countOcc_short (n : List Char) :
    ∀ h : List Char, h.length < n.length → countOcc n h = 0 := by
  intro h
  induction h with
  | nil =>
    intro hlen
    cases n with
    | nil => simp at hlen
    | cons x xs => exact countOcc_nil _ (by simp)
  | cons y t ih =>
    intro hlen
    rw [countOcc, isPrefixB_short n _ hlen, ih (Nat.lt_of_le_of_lt (by simp) hlen)]
    simp

theorem countOcc_self (n : List Char) (h : n ≠ []) : countOcc n n = 1 := by
  cases n with
  | nil => exact absurd rfl h
  | cons x xs =>
    rw [countOcc, isPrefixB_refl]
    simp [countOcc_short (x :: xs) xs (by simp)]

theorem isInfixB_eq_countOcc_pos (n : List Char) :
    ∀ h, isInfixB n h = true ↔ 0 < countOcc n h := by
  intro h
  induction h with
  | nil =>
    rw [isInfixB, countOcc]
    split <;> simp_all
  | cons c t ih =>
    rw [isInfixB, countOcc]
    cases hp : isPrefixB n (c :: t) with
    | true => simp
    | false => simp [ih]

theorem countOcc_zero_of_append (n : List Char) :
    ∀ (a b : List Char), countOcc n (a ++ b) = 0 → countOcc n a = 0 := by
  intro a
  induction a with
  | nil =>
    intro b h
    by_cases hn : n = []
    · exfalso
      subst hn
      have := countOcc_nil_needle ([] ++ b)
      omega
    · exact countOcc_nil n hn
  | cons y a' ih =>
    intro b h
    rw [List.cons_append, countOcc] at h
    rw [countOcc]
    have h1 : countOcc n (a' ++ b) = 0 := by omega
    have h2 : (if isPrefixB n (y :: (a' ++ b)) = true then 1 else 0) = 0 := by omega
    rw [ih b h1]
    cases hp : isPrefixB n (y :: a') with
    | false => simp
    | true =>
      exfalso
      have hext := isPrefixB_append_of n (y :: a') b hp
      rw [List.cons_append] at hext
      simp [hext] at h2

theorem isInfixB_of_isPrefixB (n h : List Char) (hp : isPrefixB n h = true) :
    isInfixB n h = true := by
  cases h with
  | nil => exact hp
  | cons c t => rw [isInfixB, hp]; rfl

theorem isInfixB_middle (n : List Char) :
    ∀ (a b : List Char), isInfixB n (a ++ n ++ b) = true := by
  intro a
  induction a with
  | nil =>
    intro b
    rw [List.nil_append]
    exact isInfixB_of_isPrefixB n (n ++ b) (isPrefixB_self_append n b)
  | cons x a' ih =>
    intro b
    rw [List.cons_append, List.cons_append, isInfixB, ih b]
    simp

theorem appendContent_contains (v L : String) :
    strContains (appendContent v L) L = true := by
  unfold appendContent strContains
  by_cases h1 : v = ""
  · rw [if_pos h1]
    simp only [string_data_append]
    exact isInfixB_middle L.data [] ("\n".data)
  · rw [if_neg h1]
    by_cases h2 : endsWithNewline v = true
    · rw [if_pos h2]
      simp only [string_data_append]
      exact isInfixB_middle L.data v.data ("\n".data)
    · rw [if_neg h2]
      simp only [string_data_append]
      exact isInfixB_middle L.data (v.data ++ "\n".data) ("\n".data)

theorem needle_ne_nil_of_not_contains (v L : String) (h : strContains v L = false) :
    L.data ≠ [] := by
  intro hL
  unfold strContains at h
  rw [hL] at h
  cases hv : v.data with
  | nil => rw [hv] at h; simp [isInfixB, isPrefixB] at h
  | cons c t => rw [hv] at h; simp [isInfixB, isPrefixB] at h

theorem countOcc_self_newline (L : List Char) (hL : L ≠ []) (hnl : '\n' ∉ L) :
    countOcc L (L ++ ['\n']) = 1 := by
  rw [show L ++ ['\n'] = L ++ '\n' :: [] from rfl, countOcc_sep L '\n' hnl hL L []]
  rw [countOcc_self L hL, countOcc_nil L hL]

theorem appendContent_count (v L : String) (hnc : strContains v L = false)
    (hnl : '\n' ∉ L.data) :
    countOcc L.data (appendContent v L).data = 1 := by
  have hLne : L.data ≠ [] := needle_ne_nil_of_not_contains v L hnc
  have hv0 : countOcc L.data v.data = 0 := by
    rcases Nat.eq_zero_or_pos (countOcc L.data v.data) with h | h
    · exact h
    · exact absurd ((isInfixB_eq_countOcc_pos L.data v.data).mpr h)
        (by unfold strContains at hnc; rw [hnc]; simp)
  unfold appendContent
  by_cases h1 : v = ""
  · rw [if_pos h1]
    rw [string_data_append]
    exact countOcc_self_newline L.data hLne hnl
  · rw [if_neg h1]
    by_cases h2 : endsWithNewline v = true
    · rw [if_pos h2]
      have h2' : v.data.getLast? = some '\n' := by
        simpa [endsWithNewline] using h2
      obtain ⟨init, hinit⟩ := List.getLast?_eq_some_iff.mp h2'
      simp only [string_data_append]
      rw [hinit]
      rw [show ((init ++ ['\n']) ++ L.data) ++ ("\n").data
          = init ++ '\n' :: (L.data ++ ['\n']) from by simp]
      rw [countOcc_sep L.data '\n' hnl hLne init (L.data ++ ['\n'])]
      rw [countOcc_self_newline L.data hLne hnl]
      have hinit0 : countOcc L.data init = 0 :=
        countOcc_zero_of_append L.data init ['\n'] (by rw [← hinit]; exact hv0)
      omega
    · rw [if_neg h2]
      simp only [string_data_append]
      rw [show ((v.data ++ ("\n").data) ++ L.data) ++ ("\n").data
          = v.data ++ '\n' :: (L.data ++ ['\n']) from by simp]
      rw [countOcc_sep L.data '\n' hnl hLne v.data (L.data ++ ['\n'])]
      rw [countOcc_self_newline L.data hLne hnl, hv0]

-- ---------------------------------------------------------------------------
-- C5: filesystem decomposition of a generated plan's apply
-- ---------------------------------------------------------------------------

/-- A sequence of unconditional writes (the shape of the `Create` prefix and
of the provenance pass). -/
def writeList (ws : List (RPath × String)) (fs : FS) : FS :=
  ws.foldl (fun fs pc => fsWrite fs pc.1 pc.2) fs

/-- The path/content pairs written by the `Create` mutations of a generated
plan, in order. -/
def createPairs (entry : RegistryEntry) (layout : TemplateAdapter) : List (RPath × String) :=
  entry.required_files.map (fun f =>
    ((layout.component_dir entry.name).joinStr (sourceFilename entry.name f),
      stubContent entry f))
  ++ [((layout.component_dir entry.name).joinStr "mod.rs", modContent entry)]

/-- The path/content pairs written by the provenance pass. -/
def provPairs (plan : PlanContract) : List (RPath × String) :=
  plan.provenance_actions.map (fun pa =>
    (provenancePath pa.file_path, provenanceContent pa))

theorem fsRead_fsWrite (fs : FS) (p : RPath) (c : String) (q : RPath) :
    fsRead (fsWrite fs p c) q = if q = p then some c else fsRead fs q := by
  show assocFind (assocUpsert fs p c) q = _
  exact assocFind_upsert fs p q c

theorem fsRead_writeList (ws : List (RPath × String)) :
    ∀ (fs : FS) (q : RPath),
    fsRead (writeList ws fs) q
      = match ws.reverse.find? (fun pc => decide (pc.1 = q)) with
        | some pc => some pc.2
        | none => fsRead fs q := by
  induction ws with
  | nil => intro fs q; rfl
  | cons pc t ih =>
    intro fs q
    show fsRead (writeList t (fsWrite fs pc.1 pc.2)) q = _
    rw [ih, List.reverse_cons, List.find?_append]
    cases hf : t.reverse.find? (fun pc => decide (pc.1 = q)) with
    | some e => simp [Option.or]
    | none =>
      simp only [Option.none_or]
      rw [fsRead_fsWrite]
      by_cases hq : q = pc.1
      · rw [if_pos hq, List.find?_cons_of_pos _ (by simp [hq])]
      · rw [if_neg hq, List.find?_cons_of_neg _ (by simp; exact fun h => hq h.symm)]
        simp [List.find?]

theorem fsRead_append_export_step (pm : RPath) (content : String) (fs : FS) (q : RPath) :
    fsRead (append_export_step pm content fs) q
      = if q = pm then
          (if strContains ((fsRead fs pm).getD "") content then fsRead fs pm
           else some (appendContent ((fsRead fs pm).getD "") content))
        else fsRead fs q := by
  unfold append_export_step
  by_cases hc : strContains ((fsRead fs pm).getD "") content = true
  · rw [if_pos hc]
    by_cases hq : q = pm
    · rw [if_pos hq, if_pos hc]
      subst hq
      rfl
    · rw [if_neg hq]
  · rw [if_neg hc, fsRead_fsWrite]
    by_cases hq : q = pm
    · rw [if_pos hq, if_pos hq, if_neg hc]
    · rw [if_neg hq, if_neg hq]

theorem contains_append_export_step (pm : RPath) (content : String) (fs : FS) :
    strContains ((fsRead (append_export_step pm content fs) pm).getD "") content = true := by
  unfold append_export_step
  by_cases hc : strContains ((fsRead fs pm).getD "") content = true
  · rw [if_pos hc]
    exact hc
  · rw [if_neg hc, fsRead_fsWrite, if_pos rfl]
    exact appendContent_contains _ _

theorem run_tail_eq (entry : RegistryEntry) (layout : TemplateAdapter) (fs' : FS) :
    run_mutations apply_mutation [modMutation entry layout, appendMutation entry layout] fs'
      = (none, append_export_step layout.module_file (layout.export_line entry.name)
          (fsWrite fs' ((layout.component_dir entry.name).joinStr "mod.rs")
            (modContent entry))) := rfl

theorem run_creates_none (entry : RegistryEntry) (cd : RPath) (rest : List FileMutation)
    (hrest : ∀ fs' : FS, (run_mutations apply_mutation rest fs').1 = none) :
    ∀ (rf : List String) (fs : FS),
    run_mutations apply_mutation (rf.map (createMutation entry cd) ++ rest) fs
      = run_mutations apply_mutation rest
          (writeList (rf.map (fun f =>
            (cd.joinStr (sourceFilename entry.name f), stubContent entry f))) fs) := by
  intro rf
  induction rf with
  | nil => intro fs; rfl
  | cons f t ih =>
    intro fs
    rw [List.map_cons, List.cons_append]
    have hstep : apply_mutation (createMutation entry cd f) fs
        = Except.ok (fsWrite fs (cd.joinStr (sourceFilename entry.name f))
            (stubContent entry f)) := rfl
    rw [show writeList ((f :: t).map (fun f =>
          (cd.joinStr (sourceFilename entry.name f), stubContent entry f))) fs
        = writeList (t.map (fun f =>
            (cd.joinStr (sourceFilename entry.name f), stubContent entry f)))
            (fsWrite fs (cd.joinStr (sourceFilename entry.name f)) (stubContent entry f))
      from rfl]
    rw [← ih]
    rcases hr : run_mutations apply_mutation
        (t.map (createMutation entry cd) ++ rest)
        (fsWrite fs (cd.joinStr (sourceFilename entry.name f)) (stubContent entry f))
      with ⟨o, fsd⟩
    have hnone : o = none := by
      have h2 := hrest (writeList (t.map (fun f =>
        (cd.joinStr (sourceFilename entry.name f), stubContent entry f)))
        (fsWrite fs (cd.joinStr (sourceFilename entry.name f)) (stubContent entry f)))
      rw [ih] at hr
      rw [hr] at h2
      exact h2
    subst hnone
    simp only [run_mutations, hstep, hr]

theorem apply_generated (entry : RegistryEntry) (layout : TemplateAdapter)
    (existing_files : List RPath) (fs : FS) :
    apply_plan apply_mutation (generate_plan entry layout existing_files) fs
      = (none, writeList (provPairs (generate_plan entry layout existing_files))
          (append_export_step layout.module_file (layout.export_line entry.name)
            (writeList (createPairs entry layout) fs))) := by
  have hrest : ∀ fs' : FS,
      (run_mutations apply_mutation
        [modMutation entry layout, appendMutation entry layout] fs').1 = none := by
    intro fs'
    rw [run_tail_eq]
  have hrun : run_mutations apply_mutation
      (generate_plan entry layout existing_files).mutations fs
      = (none, append_export_step layout.module_file (layout.export_line entry.name)
          (writeList (createPairs entry layout) fs)) := by
    show run_mutations apply_mutation
      ((entry.required_files.map (createMutation entry (layout.component_dir entry.name))
        ++ [modMutation entry layout]) ++ [appendMutation entry layout]) fs = _
    rw [List.append_assoc]
    rw [run_creates_none entry (layout.component_dir entry.name)
      ([modMutation entry layout] ++ [appendMutation entry layout]) hrest
      entry.required_files fs]
    rw [show ([modMutation entry layout] ++ [appendMutation entry layout])
        = [modMutation entry layout, appendMutation entry layout] from rfl]
    rw [run_tail_eq]
    rw [show writeList (createPairs entry layout) fs
        = fsWrite (writeList (entry.required_files.map (fun f =>
            ((layout.component_dir entry.name).joinStr (sourceFilename entry.name f),
              stubContent entry f))) fs)
            ((layout.component_dir entry.name).joinStr "mod.rs") (modContent entry) from by
      unfold createPairs writeList
      rw [List.foldl_append]
      rfl]
  have hwp : ∀ X : FS, writeProvenance X (generate_plan entry layout existing_files).provenance_actions
      = writeList (provPairs (generate_plan entry layout existing_files)) X := by
    intro X
    unfold writeProvenance provPairs writeList
    rw [List.foldl_map]
  unfold apply_plan
  rw [hrun]
  simp only [hwp]

theorem hread_gen (P1 P2 : List (RPath × String)) (pm : RPath) (L : String) :
    ∀ (s : FS) (q : RPath),
    fsRead (writeList P2 (append_export_step pm L (writeList P1 s))) q
      = match P2.reverse.find? (fun pc => decide (pc.1 = q)) with
        | some pc => some pc.2
        | none =>
          if q = pm then
            (if strContains ((fsRead (writeList P1 s) pm).getD "") L then
              fsRead (writeList P1 s) pm
             else some (appendContent ((fsRead (writeList P1 s) pm).getD "") L))
          else match P1.reverse.find? (fun pc => decide (pc.1 = q)) with
            | some pc => some pc.2
            | none => fsRead s q := by
  intro s q
  rw [fsRead_writeList]
  cases hf2 : P2.reverse.find? (fun pc => decide (pc.1 = q)) with
  | some e => rfl
  | none =>
    rw [fsRead_append_export_step]
    by_cases hq : q = pm
    · rw [if_pos hq, if_pos hq]
    · rw [if_neg hq, if_neg hq, fsRead_writeList]

theorem apply_gen_idem (P1 P2 : List (RPath × String)) (pm : RPath) (L : String)
    (fs : FS) (q : RPath) :
    fsRead (writeList P2 (append_export_step pm L (writeList P1
      (writeList P2 (append_export_step pm L (writeList P1 fs)))))) q
      = fsRead (writeList P2 (append_export_step pm L (writeList P1 fs))) q := by
  rw [hread_gen, hread_gen]
  cases hf2 : P2.reverse.find? (fun pc => decide (pc.1 = q)) with
  | some e => rfl
  | none =>
    by_cases hq : q = pm
    · rw [if_pos hq, if_pos hq]
      cases hf1 : P1.reverse.find? (fun pc => decide (pc.1 = pm)) with
      | some e =>
        have h1 : fsRead (writeList P1
            (writeList P2 (append_export_step pm L (writeList P1 fs)))) pm = some e.2 := by
          rw [fsRead_writeList, hf1]
        have h2 : fsRead (writeList P1 fs) pm = some e.2 := by
          rw [fsRead_writeList, hf1]
        rw [h1, h2]
      | none =>
        have h1 : fsRead (writeList P1
            (writeList P2 (append_export_step pm L (writeList P1 fs)))) pm
            = fsRead (append_export_step pm L (writeList P1 fs)) pm := by
          rw [fsRead_writeList, hf1, fsRead_writeList]
          have hf2' : P2.reverse.find? (fun pc => decide (pc.1 = pm)) = none := by
            rw [← hq]
            exact hf2
          rw [hf2']
        rw [h1]
        have hcont := contains_append_export_step pm L (writeList P1 fs)
        rw [if_pos hcont]
        rw [fsRead_append_export_step, if_pos rfl]
    · rw [if_neg hq, if_neg hq]
      cases hf1 : P1.reverse.find? (fun pc => decide (pc.1 = q)) with
      | some e => rfl
      | none => rfl

/-- C5 (amended): applying a generated plan twice from any starting
filesystem state leaves every file with the same content after the second
apply as after the first (the `AppendExport` substring check makes the
second append a no-op, and every other write is an unconditional write of
fixed content).  When additionally the export line contains no newline, the
module file is not also a `Create` or provenance-sidecar target, and the
starting module file does not already contain the export line as a
substring, the module file contains the export line exactly once after each
apply.  (As frozen, the claim fails: a starting module file that already
contains the export line twice still contains it twice after both applies.)
Conflicts play no role: apply never consults them. -/
theorem c5_apply_idempotent (entry : RegistryEntry) (layout : TemplateAdapter)
    (existing_files : List RPath) (fs0 : FS) :
    ∃ fs1 fs2,
      apply_plan apply_mutation (generate_plan entry layout existing_files) fs0
        = (none, fs1) ∧
      apply_plan apply_mutation (generate_plan entry layout existing_files) fs1
        = (none, fs2) ∧
      (∀ q, fsRead fs2 q = fsRead fs1 q) ∧
      (('\n' ∉ (layout.export_line entry.name).data) →
       (∀ m ∈ (generate_plan entry layout existing_files).mutations,
          m.action = FileAction.Create → m.file_path ≠ layout.module_file) →
       (∀ pa ∈ (generate_plan entry layout existing_files).provenance_actions,
          provenancePath pa.file_path ≠ layout.module_file) →
       strContains ((fsRead fs0 layout.module_file).getD "")
         (layout.export_line entry.name) = false →
       countOcc (layout.export_line entry.name).data
         ((fsRead fs1 layout.module_file).getD "").data = 1 ∧
       countOcc (layout.export_line entry.name).data
         ((fsRead fs2 layout.module_file).getD "").data = 1) := by
  refine ⟨_, _, apply_generated entry layout existing_files fs0,
    apply_generated entry layout existing_files _, ?_, ?_⟩
  · intro q
    exact apply_gen_idem (createPairs entry layout)
      (provPairs (generate_plan entry layout existing_files))
      layout.module_file (layout.export_line entry.name) fs0 q
  · intro hnl hcre hprov hcont
    have hf2 : (provPairs (generate_plan entry layout existing_files)).reverse.find?
        (fun pc => decide (pc.1 = layout.module_file)) = none := by
      rw [List.find?_eq_none]
      intro pc hpc
      simp only [decide_eq_true_eq]
      rw [List.mem_reverse] at hpc
      unfold provPairs at hpc
      rcases List.mem_map.mp hpc with ⟨pa, hpa, rfl⟩
      exact hprov pa hpa
    have hf1 : (createPairs entry layout).reverse.find?
        (fun pc => decide (pc.1 = layout.module_file)) = none := by
      rw [List.find?_eq_none]
      intro pc hpc
      simp only [decide_eq_true_eq]
      rw [List.mem_reverse] at hpc
      unfold createPairs at hpc
      rw [List.mem_append] at hpc
      rcases hpc with hpc | hpc
      · rcases List.mem_map.mp hpc with ⟨f, hf, rfl⟩
        exact hcre _ ((mem_generate_plan_mutations entry layout existing_files _).mpr
          (Or.inl ⟨f, hf, rfl⟩)) rfl
      · rw [List.mem_singleton] at hpc
        subst hpc
        exact hcre _ ((mem_generate_plan_mutations entry layout existing_files _).mpr
          (Or.inr (Or.inl rfl))) rfl
    have hv1 : fsRead (writeList (provPairs (generate_plan entry layout existing_files))
        (append_export_step layout.module_file (layout.export_line entry.name)
          (writeList (createPairs entry layout) fs0))) layout.module_file
        = some (appendContent ((fsRead fs0 layout.module_file).getD "")
            (layout.export_line entry.name)) := by
      rw [fsRead_writeList, hf2, fsRead_append_export_step, if_pos rfl]
      have hr0 : fsRead (writeList (createPairs entry layout) fs0) layout.module_file
          = fsRead fs0 layout.module_file := by
        rw [fsRead_writeList, hf1]
      rw [hr0, if_neg (by rw [hcont]; simp)]
    constructor
    · rw [hv1]
      exact appendContent_count _ _ hcont hnl
    · rw [apply_gen_idem (createPairs entry layout)
        (provPairs (generate_plan entry layout existing_files))
        layout.module_file (layout.export_line entry.name) fs0 layout.module_file]
      rw [hv1]
      exact appendContent_count _ _ hcont hnl

/-- C5 counterexample to the claim as frozen: starting from a filesystem
whose shared module file already contains `pub mod dialog;` twice, applying
the (conflict-free) Dialog plan twice leaves the export line occurring
twice, not exactly once — the substring check turns both appends into
no-ops and nothing ever de-duplicates. -/
theorem c5_counterexample :
    dialogPlan.has_conflicts = false ∧
    (apply_plan apply_mutation dialogPlan
      [(rpath "/proj/src/shared/ui/mod.rs", "pub mod dialog;\npub mod dialog;\n")]).1
        = none ∧
    (apply_plan apply_mutation dialogPlan
      ((apply_plan apply_mutation dialogPlan
        [(rpath "/proj/src/shared/ui/mod.rs", "pub mod dialog;\npub mod dialog;\n")]).2)).1
        = none ∧
    countOcc ("pub mod dialog;").data
      ((fsRead ((apply_plan apply_mutation dialogPlan
        ((apply_plan apply_mutation dialogPlan
          [(rpath "/proj/src/shared/ui/mod.rs", "pub mod dialog;\npub mod dialog;\n")]).2)).2)
        (rpath "/proj/src/shared/ui/mod.rs")).getD "").data = 2 := by
  exact ⟨by decide, by decide, by decide, by decide⟩

/-- Witness for C5 (amended) at the Dialog plan from an empty filesystem:
both applies succeed, the second changes nothing, and the export line
occurs exactly once in the module file. -/
theorem c5_witness :
    ∃ fs1 fs2,
      apply_plan apply_mutation dialogPlan [] = (none, fs1) ∧
      apply_plan apply_mutation dialogPlan fs1 = (none, fs2) ∧
      (∀ q, fsRead fs2 q = fsRead fs1 q) ∧
      countOcc ((DefaultLayout (rpath "/proj")).export_line dialogEntry.name).data
        ((fsRead fs1 ((DefaultLayout (rpath "/proj")).module_file)).getD "").data = 1 := by
  obtain ⟨fs1, fs2, h1, h2, h3, h4⟩ :=
    c5_apply_idempotent dialogEntry (DefaultLayout (rpath "/proj")) [] []
  obtain ⟨hc1, -⟩ := h4 (by decide) (by decide) (by decide) (by decide)
  exact ⟨fs1, fs2, h1, h2, h3, hc1⟩
